import Mathlib

/-
Verification development for the Shopify product-tool repository.

The Python sources (create_product.py, update_product.py, delete_product.py,
get_all_products.py, search_products.py) are shallowly embedded below.
Python strings are modelled as Lean `String` (sequences of code points, as in
CPython), machine floats as exact rationals `ℚ` (binary-rounding of floats is
not modelled; all inputs of interest are short decimals), and the language
model and the Shopify store are modelled as explicit collaborator parameters.
All definitions are executable and computations go through the kernel.
-/

namespace Shopify

/-! ## Python string primitives -/

/-- Python `str.isspace` characters relevant to `\s` and `split()`:
space, tab, newline, carriage return, vertical tab, form feed (ASCII model). -/
def pyIsSpace (c : Char) : Bool :=
  c = ' ' || c = '\t' || c = '\n' || c = '\x0d' || c = '\x0b' || c = '\x0c'

/-- Boolean prefix test on character lists. -/
def isPrefB : List Char → List Char → Bool
  | [], _ => true
  | _ :: _, [] => false
  | a :: as, b :: bs => a = b && isPrefB as bs

/-- Boolean substring (contiguous) test: does `n` occur inside `h`? -/
def isInfB (n : List Char) : List Char → Bool
  | [] => n.isEmpty
  | b :: bs => isPrefB n (b :: bs) || isInfB n bs

/-- Join a list of strings with a separator, as Python `sep.join(list)`. -/
def joinSep (sep : String) : List String → String
  | [] => ""
  | [x] => x
  | x :: y :: xs => x ++ sep ++ joinSep sep (y :: xs)

/-- Python `s.split('\n')`: split on every newline; result is never empty. -/
def splitOnNl : List Char → List (List Char)
  | [] => [[]]
  | c :: cs =>
    if c = '\n' then [] :: splitOnNl cs
    else
      match splitOnNl cs with
      | [] => [[c]]
      | h :: t => (c :: h) :: t

/-- Python `s.strip()` on a character list. -/
def pyStripL (l : List Char) : List Char :=
  ((l.dropWhile pyIsSpace).reverse.dropWhile pyIsSpace).reverse

/-- Python `s.strip()`. -/
def pyStrip (s : String) : String := String.mk (pyStripL s.data)

/-- Python `s.split()` (no separator): words between whitespace runs,
empty words discarded. The first argument accumulates the current word
in reverse. -/
def pySplitWsAux : List Char → List Char → List (List Char)
  | cur, [] => if cur.isEmpty then [] else [cur.reverse]
  | cur, c :: cs =>
    if pyIsSpace c then
      if cur.isEmpty then pySplitWsAux [] cs
      else cur.reverse :: pySplitWsAux [] cs
    else pySplitWsAux (c :: cur) cs

/-- Python `s.split()`. -/
def pySplitWs (s : String) : List String :=
  (pySplitWsAux [] s.data).map String.mk

/-- First occurrence split: `splitFirstOn sep l = some (before, after)` at the
leftmost occurrence of `sep` in `l`, `none` if `sep` does not occur. -/
def splitFirstOn (sep : List Char) : List Char → Option (List Char × List Char)
  | [] => if sep.isEmpty then some ([], []) else none
  | c :: cs =>
    if isPrefB sep (c :: cs) then some ([], (c :: cs).drop sep.length)
    else (splitFirstOn sep cs).map (fun pq => (c :: pq.1, pq.2))

/-- Python `s.split(sep, maxsplit)`: at most `n` splits, leftmost first. -/
def pySplitOnN (sep : List Char) : Nat → List Char → List (List Char)
  | 0, l => [l]
  | n + 1, l =>
    match splitFirstOn sep l with
    | none => [l]
    | some (p, q) => p :: pySplitOnN sep n q

/-- Python `s.split(sep)` (split on all occurrences of a non-empty separator),
implemented with enough fuel for the whole string. -/
def pySplitOnAll (sep : List Char) (l : List Char) : List (List Char) :=
  pySplitOnN sep l.length l

/-- Value of a list of decimal digits. -/
def digitsVal (l : List Char) : Nat :=
  l.foldl (fun acc c => 10 * acc + (c.toNat - '0'.toNat)) 0

/-- Parse a non-empty run of decimal digits together with an optional
fractional part, as the mantissa of Python `float(...)`. -/
def parseMantissa (l : List Char) : Option (ℚ × List Char) :=
  let ds := l.takeWhile Char.isDigit
  let rest := l.drop ds.length
  match rest with
  | '.' :: rest2 =>
    let fs := rest2.takeWhile Char.isDigit
    let rest3 := rest2.drop fs.length
    if ds.isEmpty && fs.isEmpty then none
    else some ((digitsVal ds : ℚ) + (digitsVal fs : ℚ) / ((10 : ℚ) ^ fs.length), rest3)
  | _ =>
    if ds.isEmpty then none else some ((digitsVal ds : ℚ), rest)

/-- Parse an optional exponent suffix `e|E [+|-] digits`. -/
def parseExponent (q : ℚ) : List Char → Option ℚ
  | [] => some q
  | e :: rest =>
    if e = 'e' || e = 'E' then
      let (neg, rest2) :=
        match rest with
        | '-' :: r => (true, r)
        | '+' :: r => (false, r)
        | r => (false, r)
      let ds := rest2.takeWhile Char.isDigit
      let rest3 := rest2.drop ds.length
      if ds.isEmpty || !rest3.isEmpty then none
      else if neg then some (q / (10 : ℚ) ^ digitsVal ds)
      else some (q * (10 : ℚ) ^ digitsVal ds)
    else none

/-- Model of Python `float(s)` for finite decimal literals: optional
surrounding whitespace, optional sign, decimal mantissa, optional exponent.
(`inf`, `nan` and digit-group underscores are outside the model.) -/
def parseFloat (s : String) : Option ℚ :=
  let l := pyStripL s.data
  let (neg, l2) :=
    match l with
    | '-' :: r => (true, r)
    | '+' :: r => (false, r)
    | r => (false, r)
  match parseMantissa l2 with
  | none => none
  | some (q, rest) =>
    match parseExponent q rest with
    | none => none
    | some q2 => some (if neg then -q2 else q2)

/-- Integer part and decimal digits of a non-negative rational, used to model
Python `str(float)` for exact short decimals (fuel-capped at 17 digits). -/
def fracDigits : Nat → Nat → Nat → List Char
  | 0, _, _ => []
  | _ + 1, _, 0 => []
  | fuel + 1, den, rem =>
    let d := 10 * rem / den
    Char.ofNat ('0'.toNat + d) :: fracDigits fuel den (10 * rem % den)

/-- Model of Python `str(float)` (repr of a float) for exact short decimals. -/
def reprQ (q : ℚ) : String :=
  let sign := if q < 0 then "-" else ""
  let a := (if q < 0 then -q else q)
  let n := a.num.toNat
  let d := a.den
  let ip := n / d
  let rem := n % d
  let frac := if rem = 0 then ['0'] else fracDigits 17 d rem
  sign ++ toString ip ++ "." ++ String.mk frac

/-- ASCII lowercase of a string (model of Python `str.lower` on ASCII). -/
def toLowerStr (s : String) : String := String.mk (s.data.map Char.toLower)

/-! ## trim_product_type (create_product.py lines 180-199) -/

/-- `trim_product_type`: if the string exceeds `max_length`, truncate to the
first `max_length` characters and keep the original as overflow metadata. -/
def trim_product_type (product_type : String) (max_length : Nat) :
    String × Option String :=
  if product_type.data.length > max_length then
    (String.mk (product_type.data.take max_length), some product_type)
  else (product_type, none)

/-! ## trim_tags (create_product.py lines 201-246, update_product.py 325-370) -/

/-- Leading `\d+\.\s` prefix removal, the first alternative of the source
regex `^\d+\.\s|\.$` (one leading digit run, a period, one whitespace). -/
def stripNumPrefix (l : List Char) : List Char :=
  let ds := l.takeWhile Char.isDigit
  if ds.isEmpty then l
  else
    match l.drop ds.length with
    | '.' :: w :: rest2 => if pyIsSpace w then rest2 else l
    | _ => l

/-- Trailing-period removal, the second alternative of `^\d+\.\s|\.$`. -/
def stripTrailingDot (l : List Char) : List Char :=
  match l.getLast? with
  | some '.' => l.dropLast
  | _ => l

/-- `re.sub(r'^\d+\.\s|\.$', '', tag)`: both alternatives applied
(they cannot overlap, so global substitution is their composition). -/
def stripTagDecorations (l : List Char) : List Char :=
  stripTrailingDot (stripNumPrefix l)

/-- The tag list `trim_tags` iterates over: split on newlines, strip the
numbering prefix and trailing period, then `tag.strip()` from the loop body. -/
def processedTags (tags_string : String) : List String :=
  (splitOnNl tags_string.data).map
    (fun l => String.mk (pyStripL (stripTagDecorations l)))

/-- The greedy accumulation loop of `trim_tags`: `len` is the running
`length` accumulator; a tag whose inclusion would push the accumulator past
`m` goes to the overflow list instead. -/
def trimTagsFold (m : Nat) : List String → Nat → List String × List String
  | [], _ => ([], [])
  | t :: ts, len =>
    let newLen := t.data.length + len + (if 0 < len then 2 else 0)
    if newLen > m then
      ((trimTagsFold m ts len).1, t :: (trimTagsFold m ts len).2)
    else
      (t :: (trimTagsFold m ts newLen).1, (trimTagsFold m ts newLen).2)

/-- Kept and overflow tag lists of `trim_tags`. -/
def trim_tags_lists (tags_string : String) (max_length : Nat) :
    List String × List String :=
  trimTagsFold max_length (processedTags tags_string) 0

/-- `trim_tags`: comma+space-joined kept tags and optional comma+space-joined
overflow metadata (`None` when nothing overflowed). -/
def trim_tags (tags_string : String) (max_length : Nat) :
    String × Option String :=
  (joinSep ", " (trim_tags_lists tags_string max_length).1,
   if (trim_tags_lists tags_string max_length).2.isEmpty then none
   else some (joinSep ", " (trim_tags_lists tags_string max_length).2))

/-- The code's length accounting, as a fold over the kept list starting from
an initial accumulator value. -/
def codeLenFrom (len : Nat) (k : List String) : Nat :=
  k.foldl (fun L t => t.data.length + L + (if 0 < L then 2 else 0)) len

/-- The accounting used by the spec sentence: each tag's length plus 2 for
the separator, except the first. -/
def spec_sep_len : List String → Nat
  | [] => 0
  | t :: ts => t.data.length + (ts.map (fun u => u.data.length)).sum + 2 * ts.length

/-! ## _generate_specific_price post-processing
(create_product.py lines 248-280, update_product.py lines 372-421) -/

/-- Python regex word character (ASCII model of `\w`). -/
def isWordChar (c : Char) : Bool := c.isAlpha || c.isDigit || c = '_'

/-- `re.findall(r"\b\d+\b", s)`: maximal decimal digit runs whose neighbours
(or the string ends) are non-word characters. `prevW` records whether the
previous character was a word character; fuel bounds the scan. -/
def findIntsFuel : Nat → Bool → List Char → List (List Char)
  | 0, _, _ => []
  | _ + 1, _, [] => []
  | fuel + 1, prevW, c :: cs =>
    if c.isDigit then
      let run := (c :: cs).takeWhile Char.isDigit
      let rest := (c :: cs).drop run.length
      let keep := !prevW &&
        (match rest.head? with
         | none => true
         | some d => !isWordChar d)
      if keep then run :: findIntsFuel fuel true rest
      else findIntsFuel fuel true rest
    else findIntsFuel fuel (isWordChar c) cs

/-- `re.findall(r"\b\d+\b", s)` on a string. -/
def find_int_tokens (s : String) : List String :=
  (findIntsFuel (s.data.length + 1) false s.data).map String.mk

/-- The ambiguity test of `_generate_specific_price`:
`"-" in price or "," in price or " " in price or len(price.split()) > 5`. -/
def price_ambiguous (price : String) : Bool :=
  price.data.contains '-' || price.data.contains ',' ||
  price.data.contains ' ' || decide (5 < (pySplitWs price).length)

/-- `price.replace("$", "")`: every dollar sign removed. -/
def removeDollars (s : String) : String :=
  String.mk (s.data.filter (fun c => c ≠ '$'))

/-- Post-processing of `_generate_specific_price` as a function of the raw
first reply and of the reply a follow-up call would return. Result:
(parsed price, overflow metadata, number of follow-up generation calls).
A `none` price models the uncaught `float(...)` ValueError. -/
def generate_specific_price_post (raw second : String) :
    Option ℚ × Option String × Nat :=
  if price_ambiguous raw then
    match find_int_tokens raw with
    | [a, b] =>
      (some (((digitsVal a.data : ℚ) + (digitsVal b.data : ℚ)) / 2), some raw, 0)
    | _ => (parseFloat (removeDollars second), some raw, 1)
  else (parseFloat (removeDollars raw), none, 0)

/-- Modelled from the spec words of claim C1 (for the refinement comparison
only): the raw reply with a single leading dollar sign stripped. -/
def spec_strip_leading_dollar (s : String) : String :=
  match s.data with
  | '$' :: rest => String.mk rest
  | _ => s

/-! ## Title normalization (create_product.py lines 366-391,
update_product.py lines 729-741) -/

/-- Python `str.title()` (ASCII model): a cased character after a non-cased
one is uppercased, a cased character after a cased one is lowercased. -/
def pyTitleGo : Bool → List Char → List Char
  | _, [] => []
  | prevCased, c :: cs =>
    if c.isAlpha then
      (if prevCased then c.toLower else c.toUpper) :: pyTitleGo true cs
    else c :: pyTitleGo false cs

/-- Python `title.title()`. -/
def py_title (s : String) : String := String.mk (pyTitleGo false s.data)

/-- The fixed small-word list of the source. -/
def small_words : List String :=
  ["a", "an", "and", "as", "at", "but", "by", "for", "if", "in", "nor",
   "of", "on", "or", "so", "the", "to", "up", "yet"]

/-- The loop `for i in range(1, len(title_words) - 1)`: lowercase small
words, skipping the first and the last word. `lowerInner` handles all words
except the first; its base cases leave the last word untouched. -/
def lowerInner : List String → List String
  | [] => []
  | [w] => [w]
  | w :: y :: ws =>
    (if toLowerStr w ∈ small_words then toLowerStr w else w) :: lowerInner (y :: ws)

/-- Small-word lowercasing applied to every word except the first and last. -/
def lowerSmallInterior : List String → List String
  | [] => []
  | w :: ws => w :: lowerInner ws

/-- The title finalization of `_execute`: `title.title()`, split on
whitespace, lowercase interior small words, re-join with single spaces. -/
def normalize_title (title : String) : String :=
  joinSep " " (lowerSmallInterior (pySplitWs (py_title title)))

/-! ## HTML text extraction (model of the external BeautifulSoup parser,
as used by validate_field and html_to_plain_text, for well-formed
fragments: text between tags, each tag `<...>` removed) -/

/-- Text nodes of an HTML fragment: characters outside `<...>` tags, one
node per gap between tags. -/
def bsNodesAux : Bool → List Char → List Char → List (List Char)
  | _, cur, [] => [cur.reverse]
  | false, cur, c :: cs =>
    if c = '<' then cur.reverse :: bsNodesAux true [] cs
    else bsNodesAux false (c :: cur) cs
  | true, _, c :: cs =>
    if c = '>' then bsNodesAux false [] cs else bsNodesAux true [] cs

/-- `BeautifulSoup(value, "html.parser").get_text(strip=True)`: each text
node stripped, all concatenated. -/
def extract_text (s : String) : String :=
  String.mk (((bsNodesAux false [] s.data).map pyStripL).flatten)

/-- All tag markup removed, text kept verbatim (`get_text()` of a node). -/
def tagFreeText (l : List Char) : List Char :=
  (bsNodesAux false [] l).flatten

/-- Capture the body of a `<p>` element up to the matching `</p>`. -/
def captureUntilPClose : Nat → List Char → List Char × List Char
  | 0, l => ([], l)
  | _ + 1, [] => ([], [])
  | n + 1, c :: cs =>
    if isPrefB ['<', '/', 'p', '>'] (c :: cs) then ([], (c :: cs).drop 4)
    else
      let (t, r) := captureUntilPClose n cs
      (c :: t, r)

/-- Bodies of all `<p>...</p>` elements, in order. -/
def pNodeTexts : Nat → List Char → List (List Char)
  | 0, _ => []
  | _ + 1, [] => []
  | n + 1, c :: cs =>
    if isPrefB ['<', 'p', '>'] (c :: cs) then
      let (t, r) := captureUntilPClose n ((c :: cs).drop 3)
      t :: pNodeTexts n r
    else pNodeTexts n cs

/-- `html_to_plain_text` (create_product.py lines 324-340): the text of each
paragraph element, joined by newlines. -/
def html_to_plain_text (html : String) : String :=
  joinSep "\n"
    ((pNodeTexts (html.data.length + 1) html.data).map
      (fun l => String.mk (tagFreeText l)))

/-! ## validate_field (create_product.py lines 86-140,
update_product.py lines 117-171) -/

/-- The character whitelist `[a-zA-Z0-9\s\-.,!?'\";:/]` of the string
branch. -/
def allowedStrChar (c : Char) : Bool :=
  c.isAlpha || c.isDigit || pyIsSpace c || c = '-' || c = '.' || c = ',' ||
  c = '!' || c = '?' || c = '\'' || c = '"' || c = ';' || c = ':' || c = '/'

/-- The message layout shared by all `validate_field` errors:
`f"{field_name}::\"{value}\" {reason}"`. -/
def vmsg (field_name value reason : String) : String :=
  field_name ++ "::\"" ++ value ++ "\" " ++ reason

/-- `validate_field` with `field_type="string"` on a string value. -/
def validate_field_string (value : String) (max_length : Nat)
    (field_name : String) (required : Bool) : Except String String :=
  if required && decide (value = "") then
    .error (vmsg field_name value "is required.")
  else if value = "" then .ok value
  else if !(value.data.all allowedStrChar) then
    .error (vmsg field_name value "contains inappropriate characters.")
  else if value.data.length > max_length then
    .error (vmsg field_name value "is too long.")
  else .ok value

/-- `validate_field` with `field_type="html"`. -/
def validate_field_html (value : String) (max_length : Nat)
    (field_name : String) (required : Bool) : Except String String :=
  if required && decide (value = "") then
    .error (vmsg field_name value "is required.")
  else if value = "" then .ok value
  else if extract_text value = "" then
    .error (vmsg field_name value "must contain text.")
  else if (extract_text value).data.length > max_length then
    .error (vmsg field_name value "is too long.")
  else .ok value

/-- A price value is the provided string or an already-generated float. -/
def showPriceVal : String ⊕ ℚ → String
  | .inl s => s
  | .inr q => reprQ q

/-- Python truthiness of a price value: non-empty string or non-zero float. -/
def truthyPrice : String ⊕ ℚ → Bool
  | .inl s => decide (s ≠ "")
  | .inr q => decide (q ≠ 0)

/-- `float(value)` on a price value. -/
def pyFloatOf : String ⊕ ℚ → Option ℚ
  | .inl s => parseFloat s
  | .inr q => some q

/-- `validate_field` with `field_type="price"`: convert to float, require
non-negative; a falsy non-required value is returned unconverted. The
`max_length` argument is accepted and ignored, as in the source. -/
def validate_field_price (value : String ⊕ ℚ) (_max_length : Nat)
    (field_name : String) (required : Bool) : Except String (String ⊕ ℚ) :=
  if required && !truthyPrice value then
    .error (vmsg field_name (showPriceVal value) "is required.")
  else if !truthyPrice value then .ok value
  else
    match pyFloatOf value with
    | none =>
      .error (vmsg field_name (showPriceVal value) "must be a float.")
    | some q =>
      if q < 0 then
        .error (vmsg field_name (reprQ q) "must be non-negative.")
      else .ok (.inr q)

/-- The except-block of `_execute` (create_product.py lines 443-453,
update_product.py lines 881-891): split the message on "::" then on the
first space, unquote, and format; any unpacking mismatch falls back to the
plain "Validation error: ..." form. -/
def format_validation_error (e : String) : String :=
  match pySplitOnN [':', ':'] 2 e.data with
  | [f, ve] =>
    match pySplitOnN [' '] 1 ve with
    | [v, err] =>
      "Validation error in field '" ++ String.mk f ++ "' with value '" ++
        String.mk (v.filter (fun c => c ≠ '"')) ++ "': " ++ String.mk err
    | _ => "Validation error: " ++ e
  | _ => "Validation error: " ++ e

/-! ## The validation phase of create's _execute (lines 432-453) -/

/-- Field order of the create validation block. -/
def createFieldOrder : List String :=
  ["Description", "Product type", "Tags", "Price", "Vendor"]

/-- The validated field assignments of a successful create validation. -/
structure CreateValidated where
  body_html : String
  ptype : String
  tags : String
  price : String ⊕ ℚ
  vendor : String
deriving DecidableEq

/-- The try-block of create's `_execute`: validate description, product
type, tags, price, vendor in order; the first ValueError aborts the rest.
The error also reports the list of fields validated up to and including the
failing one. -/
def create_validation (description product_type tags : String)
    (price : String ⊕ ℚ) (vendor : String) :
    Except (String × List String) CreateValidated :=
  match validate_field_html description 65535 "Description" true with
  | .error e => .error (e, createFieldOrder.take 1)
  | .ok d =>
    match validate_field_string product_type 255 "Product type" true with
    | .error e => .error (e, createFieldOrder.take 2)
    | .ok pt =>
      match validate_field_string tags 255 "Tags" false with
      | .error e => .error (e, createFieldOrder.take 3)
      | .ok tg =>
        match validate_field_price price 255 "Price" true with
        | .error e => .error (e, createFieldOrder.take 4)
        | .ok pq =>
          match validate_field_string vendor 255 "Vendor" true with
          | .error e => .error (e, createFieldOrder)
          | .ok v => .ok ⟨d, pt, tg, pq, v⟩

/-! ## The validation phase of update's _execute (lines 841-891) -/

/-- Python truthiness of an optional string. -/
def truthyOpt : Option String → Bool
  | none => false
  | some s => decide (s ≠ "")

/-- The variant loop of update's price validation: the same stripped value
is validated once per variant; zero variants validate nothing. -/
def validate_price_variants (p : String) : Nat → Except String Unit
  | 0 => .ok ()
  | k + 1 =>
    match validate_field_price (.inl p) 255 "Price" true with
    | .error e => .error e
    | .ok _ => validate_price_variants p k

/-- One conditional validation step: when the field is present, run its
validator and extend the validated-fields trace. -/
def vstep (present : Bool) (name : String) (r : Except String Unit)
    (tr : List String) : Except (String × List String) (List String) :=
  if present then
    match r with
    | .error e => .error (e, tr ++ [name])
    | .ok _ => .ok (tr ++ [name])
  else .ok tr

/-- The fields update's validation block actually validates, in order. -/
def updateFieldOrder (d pt tg pr v : Option String) (nvars : Nat) :
    List String :=
  (if truthyOpt d then ["Description"] else []) ++
  (if truthyOpt pt then ["Product type"] else []) ++
  (if truthyOpt tg then ["Tags"] else []) ++
  (if truthyOpt pr && decide (0 < nvars) then ["Price"] else []) ++
  (if truthyOpt v then ["Vendor"] else [])

/-- A sequence of conditional validation steps, aborted by the first
error, threading the validated-fields trace. -/
def vchain : List (Bool × String × Except String Unit) → List String →
    Except (String × List String) (List String)
  | [], tr => .ok tr
  | (p, nm, r) :: rest, tr =>
    match vstep p nm r tr with
    | .error x => .error x
    | .ok tr' => vchain rest tr'

/-- The fields a chain actually validates, in order. -/
def chainOrder (steps : List (Bool × String × Except String Unit)) :
    List String :=
  (steps.filter (fun s => s.1)).map (fun s => s.2.1)

/-- `re.sub(r'[^\d.]', '', price)` of update's price branch. -/
def stripNonNumeric (price : String) : String :=
  String.mk (price.data.filter (fun c => c.isDigit || c = '.'))

/-- The five conditional validation steps of update's try-block, in source
order. -/
def updateSteps (d pt tg pr v : Option String) (nvars : Nat) :
    List (Bool × String × Except String Unit) :=
  [(truthyOpt d, "Description",
      (validate_field_html (d.getD "") 65535 "Description" true).map (fun _ => ())),
   (truthyOpt pt, "Product type",
      (validate_field_string (pt.getD "") 255 "Product type" true).map (fun _ => ())),
   (truthyOpt tg, "Tags",
      (validate_field_string (tg.getD "") 255 "Tags" false).map (fun _ => ())),
   (truthyOpt pr && decide (0 < nvars), "Price",
      validate_price_variants (stripNonNumeric (pr.getD "")) nvars),
   (truthyOpt v, "Vendor",
      (validate_field_string (v.getD "") 255 "Vendor" true).map (fun _ => ()))]

/-- The try-block of update's `_execute`: each provided field is validated
in order (price first stripped of non-`[0-9.]` characters and validated
once per variant); the first ValueError aborts the rest. Returns the
validated-fields trace. -/
def update_validation (d pt tg pr v : Option String) (nvars : Nat) :
    Except (String × List String) (List String) :=
  vchain (updateSteps d pt tg pr v nvars) []

/-! ## generate_info and the generation phase of create's _execute
(create_product.py lines 142-178 and 355-430). The text-completion
collaborator is an oracle `Nat → String` giving the reply to the k-th call;
`gen_info` raises a ValueError (modelled as `Except.error`) on an empty
reply, counting the call either way. -/

/-- The ValueError message of `generate_info` for an empty reply. -/
def genFailMsg (task : String) : String :=
  "AI failed to generate information for task: " ++ task

/-- The Python error message of a failed `float(...)` conversion. -/
def floatErrMsg (s : String) : String :=
  "could not convert string to float: '" ++ s ++ "'"

/-- `generate_info`: one collaborator call; empty reply raises. -/
def gen_info (oracle : Nat → String) (n : Nat) (task : String) :
    Except (String × Nat) (String × Nat) :=
  let r := oracle n
  if r = "" then .error (genFailMsg task, n + 1) else .ok (r, n + 1)

/-- Title prompt selection (lines 370-381). -/
def title_prompt (description product_type : Option String) : String :=
  if truthyOpt description && truthyOpt product_type then
    "Write a catchy product title for a " ++ product_type.getD "" ++
      " described as " ++ description.getD "" ++ "."
  else if truthyOpt description then
    "Write a catchy product title for a product described as " ++
      description.getD "" ++ "."
  else if truthyOpt product_type then
    "Write a catchy product title for a " ++ product_type.getD "" ++ "."
  else "Write a catchy product title."

/-- The optional context suffix of the field prompts. -/
def ctxSuffix (context : Option String) : String :=
  if truthyOpt context then " Context: " ++ context.getD "" ++ "." else ""

/-- `prompt_description` (line 401). -/
def prompt_description (title : String) (context : Option String) : String :=
  "Write a captivating product description (between 1500 and 5000 characters) for a " ++
    title ++ "." ++ ctxSuffix context

/-- `prompt_product_type` (line 403); built from the input description. -/
def prompt_product_type (title : String) (description context : Option String) :
    String :=
  "Suggest a suitable type for a product with title " ++ title ++
  (if truthyOpt description then " and description " ++ description.getD "" else "") ++
  ctxSuffix context

/-- `prompt_tags` (line 405); built from the input description and type. -/
def prompt_tags (title : String) (description product_type context : Option String) :
    String :=
  "Suggest suitable tags for a product with title " ++ title ++
  (if truthyOpt description then ", description " ++ description.getD "" else "") ++
  (if truthyOpt product_type then ", and type " ++ product_type.getD "" else "") ++
  ctxSuffix context

/-- Description post-processing (lines 410-415): drop blank lines, wrap in
paragraph tags, collapse repeated `</p><p>` separators. -/
def remove_empty_lines (s : String) : String :=
  joinSep "\n"
    (((splitOnNl s.data).filter (fun l => !(pyStripL l).isEmpty)).map String.mk)

/-- `description.replace('\n', '</p><p>')`. -/
def replaceNlWithPSep (s : String) : String :=
  String.mk (s.data.foldr
    (fun c acc => if c = '\n' then ['<', '/', 'p', '>', '<', 'p', '>'] ++ acc else c :: acc) [])

/-- Drop consecutive `</p><p>` separators. -/
def dropPSeps : Nat → List Char → List Char
  | 0, l => l
  | n + 1, l =>
    if isPrefB ['<', '/', 'p', '>', '<', 'p', '>'] l then dropPSeps n (l.drop 7)
    else l

/-- `re.sub(r'(</p><p>)+', '</p><p>', s)`: each maximal run of the
separator replaced by a single one. -/
def collapsePSep : Nat → List Char → List Char
  | 0, l => l
  | _ + 1, [] => []
  | n + 1, c :: cs =>
    if isPrefB ['<', '/', 'p', '>', '<', 'p', '>'] (c :: cs) then
      ['<', '/', 'p', '>', '<', 'p', '>'] ++ collapsePSep n (dropPSeps n ((c :: cs).drop 7))
    else c :: collapsePSep n cs

/-- Full description post-processing of the generation branch. -/
def description_postprocess (s : String) : String :=
  let s1 := remove_empty_lines s
  let s2 := "<p>" ++ replaceNlWithPSep s1 ++ "</p>"
  String.mk (collapsePSep (s2.data.length + 1) s2.data)

/-- Python `str.rstrip(chars)`. -/
def rstripCharSet (cset : List Char) (s : String) : String :=
  String.mk ((s.data.reverse.dropWhile (fun c => cset.contains c)).reverse)

/-- The create-version price prompt (line 261). -/
def price_prompt_create (title description product_type tags : String) : String :=
  "Suggest a suitable price for a product with title " ++ title ++
  ", description " ++ description ++ ", type " ++ product_type ++
  ", and tags " ++ tags ++ "."

/-- The create-version vendor prompt (lines 296-309): every part is
non-None at the call site, floats shown with `str(...)`; the trailing
", " is removed with `rstrip(", ")`. -/
def vendor_prompt_create (title description product_type : String)
    (price : String ⊕ ℚ) (tags : String) : String :=
  rstripCharSet [',', ' ']
    ("Suggest a suitable vendor for a product with " ++
     "title " ++ title ++ ", " ++
     "description " ++ description ++ ", " ++
     "type " ++ product_type ++ ", " ++
     "price " ++ showPriceVal price ++ ", " ++
     "tags " ++ tags ++ ", ") ++ "."

/-- `_generate_specific_price` (lines 248-280) with its generation calls:
returns the price, overflow metadata and the next call index; errors carry
the call index at failure time. -/
def generate_specific_price_create (oracle : Nat → String) (n : Nat)
    (title description product_type tags : String) :
    Except (String × Nat) (ℚ × Option String × Nat) :=
  let pp := price_prompt_create title description product_type tags
  match gen_info oracle n pp with
  | .error en => .error en
  | .ok (price, n1) =>
    if price_ambiguous price then
      match find_int_tokens price with
      | [a, b] =>
        .ok (((digitsVal a.data : ℚ) + (digitsVal b.data : ℚ)) / 2, some price, n1)
      | _ =>
        match gen_info oracle n1
          ("Based on the previous information, " ++ pp ++
           ", select a specific price that we should start selling our product at. (Please reply in a single specific numeric value only.)") with
        | .error en => .error en
        | .ok (p2, n2) =>
          match parseFloat (removeDollars p2) with
          | none => .error (floatErrMsg (removeDollars p2), n2)
          | some q => .ok (q, some price, n2)
    else
      match parseFloat (removeDollars price) with
      | none => .error (floatErrMsg (removeDollars price), n1)
      | some q => .ok (q, none, n1)

/-- `_generate_specific_vendor` (lines 282-321) with its generation calls. -/
def generate_specific_vendor_create (oracle : Nat → String) (n : Nat)
    (title description product_type tags : String) (price : String ⊕ ℚ) :
    Except (String × Nat) (String × Option String × Nat) :=
  let vp := vendor_prompt_create title description product_type price tags
  match gen_info oracle n vp with
  | .error en => .error en
  | .ok (vendor, n1) =>
    if vendor.data.contains ',' || decide (5 < (pySplitWs vendor).length) then
      match gen_info oracle n1
        ("Based on the previous information, " ++ vp ++
         " (Please reply in less than 5 words.)") with
      | .error en => .error en
      | .ok (v2, n2) => .ok (v2, some vendor, n2)
    else .ok (vendor, none, n1)

/-- The produced draft of create's generation phase. -/
structure CreateGenOut where
  title : String
  description : String
  ptype : String
  tags : String
  price : String ⊕ ℚ
  type_metadata : Option String
  tags_metadata : Option String
  price_metadata : Option String
  vendor : String
  vendor_metadata : Option String

/-- The generation section of create's `_execute` (lines 370-430): fill in
each missing field with a collaborator call and the field-specific
post-processing, in source order. Errors (empty replies, unparsable price)
carry the number of collaborator calls made. -/
def create_generation_phase (oracle : Nat → String)
    (title description product_type vendor tags price context : Option String) :
    Except (String × Nat) (CreateGenOut × Nat) :=
  match (if truthyOpt title then .ok (title.getD "", 0)
         else gen_info oracle 0 (title_prompt description product_type) :
           Except (String × Nat) (String × Nat)) with
  | .error en => .error en
  | .ok (t0, n0) =>
    let t := normalize_title t0
    match (if truthyOpt description then .ok (description.getD "", n0)
           else match gen_info oracle n0 (prompt_description t context) with
                | .error en => .error en
                | .ok (d0, n1) => .ok (description_postprocess d0, n1) :
             Except (String × Nat) (String × Nat)) with
    | .error en => .error en
    | .ok (d, n1) =>
      match (if truthyOpt product_type then .ok ((product_type.getD "", none), n1)
             else match gen_info oracle n1 (prompt_product_type t description context) with
                  | .error en => .error en
                  | .ok (pt0, n2) =>
                    if pt0.data.length > 255 then .ok (trim_product_type pt0 255, n2)
                    else .ok ((pt0, none), n2) :
               Except (String × Nat) ((String × Option String) × Nat)) with
      | .error en => .error en
      | .ok ((pt, ptMeta), n2) =>
        match (if truthyOpt tags then .ok ((tags.getD "", none), n2)
               else match gen_info oracle n2 (prompt_tags t description product_type context) with
                    | .error en => .error en
                    | .ok (tg0, n3) => .ok (trim_tags tg0 255, n3) :
                 Except (String × Nat) ((String × Option String) × Nat)) with
        | .error en => .error en
        | .ok ((tg, tgMeta), n3) =>
          match (if truthyOpt price then .ok ((.inl (price.getD ""), none), n3)
                 else match generate_specific_price_create oracle n3 t d pt tg with
                      | .error en => .error en
                      | .ok (q, pMeta, n4) => .ok ((.inr q, pMeta), n4) :
                   Except (String × Nat) (((String ⊕ ℚ) × Option String) × Nat)) with
          | .error en => .error en
          | .ok ((pv, pMeta), n4) =>
            match (if truthyOpt vendor then .ok ((vendor.getD "", none), n4)
                   else match generate_specific_vendor_create oracle n4 t d pt tg pv with
                        | .error en => .error en
                        | .ok (v2, vm, n5) => .ok ((v2, vm), n5) :
                     Except (String × Nat) ((String × Option String) × Nat)) with
            | .error en => .error en
            | .ok ((vd, vMeta), n5) =>
              .ok (⟨t, d, pt, tg, pv, ptMeta, tgMeta, pMeta, vd, vMeta⟩, n5)

/-! ## create's _execute end to end (lines 342-541) -/

/-- What a tool invocation produces at the Python level: a returned value
or an exception escaping `_execute`. -/
inductive ExecResult
  | returned (s : String)
  | raised (e : String)
deriving DecidableEq

/-- A tool invocation outcome together with its observable effects on the
two collaborators: completed text-completion calls and product-store save
calls. -/
structure ExecTrace where
  result : ExecResult
  llmCalls : Nat
  saveCalls : Nat
deriving DecidableEq

/-- The fixed warning of create's `_execute` when title, product type and
description are all missing (lines 355-359). -/
def insufficient_info_message : String :=
  "Insufficient information provided to generate a new product. Please ensure that the product title, product type, or description are adequately specified."

/-- The labelled overflow-metadata entries (lines 471-479), None entries
filtered out. -/
def ai_metadata_entries (type_m vendor_m tags_m price_m : Option String) :
    List String :=
  (match type_m with
   | some m => ["Product Type Information: " ++ m]
   | none => []) ++
  (match vendor_m with
   | some m => ["Vendor Information: " ++ m]
   | none => []) ++
  (match tags_m with
   | some m => ["Additional Tags: " ++ m]
   | none => []) ++
  (match price_m with
   | some m => ["Pricing Information: " ++ m]
   | none => [])

/-- The success report of create's `_execute` (lines 515-537). The
surrounding f-string indentation and the store-derived fields (product id,
metafield reprs) are abbreviated; no verified claim concerns this report's
exact layout. -/
def render_create_success (title : String) (cv : CreateValidated) : String :=
  "Title: " ++ title ++
  "\n\nDescription: \n" ++ html_to_plain_text cv.body_html ++
  "\n\nProduct Type: " ++ cv.ptype ++
  "\n\nVendor: " ++ cv.vendor ++
  "\n\nTags:\n" ++ cv.tags ++
  "\n\nPrice: " ++ showPriceVal cv.price

/-- create_product.py `_execute` (lines 342-541): guard on missing inputs,
generation phase, title normalization, validation with caught errors, then
persistence. `saveOk`/`saveErr` model the store's `product.save()`; a
successful save with non-empty overflow metadata performs two further save
calls (lines 492-493). -/
def create_execute (oracle : Nat → String) (saveOk : Bool) (saveErr : String)
    (title description product_type vendor tags price context : Option String) :
    ExecTrace :=
  if !truthyOpt title && !truthyOpt product_type && !truthyOpt description then
    ⟨.returned insufficient_info_message, 0, 0⟩
  else
    match create_generation_phase oracle title description product_type vendor tags price context with
    | .error (e, n) => ⟨.raised e, n, 0⟩
    | .ok (g, n) =>
      match create_validation g.description g.ptype g.tags g.price g.vendor with
      | .error (e, _) => ⟨.returned (format_validation_error e), n, 0⟩
      | .ok cv =>
        if !saveOk then ⟨.returned ("Failed to save product: " ++ saveErr), n, 1⟩
        else
          let metaStr := joinSep "\n\n"
            (ai_metadata_entries g.type_metadata g.vendor_metadata g.tags_metadata g.price_metadata)
          if metaStr = "" then ⟨.returned (render_create_success g.title cv), n, 1⟩
          else ⟨.returned (render_create_success g.title cv), n, 3⟩

/-! ## The Shopify product store model, pagination and listing
(get_all_products.py, search_products.py, delete_product.py) -/

/-- A stored product: the attributes the embedded tools read. The store
itself is a list of products in ascending id order. -/
structure Product where
  id : Nat
  title : String
  body_html : String
  product_type : String
  vendor : String
  tags : String
  variantPrices : List String
deriving DecidableEq

/-- `shopify.Product.find(since_id=..., limit=...)`: the first `limit`
products whose id exceeds `since_id`, in catalog order (Shopify REST
semantics over an id-sorted catalog). -/
def shopifyFindPage (catalog : List Product) (sinceId limit : Nat) :
    List Product :=
  (catalog.filter (fun p => sinceId < p.id)).take limit

/-- The pagination loop of `_get_all_products` (get_all_products.py lines
80-96, search_products.py lines 114-130): pages of at most 100, `since_id`
advanced to the last id of each full page, stop on a short page. Fuel
bounds the loop; `get_all_products` supplies enough for any catalog. -/
def get_all_products_aux (catalog : List Product) :
    Nat → Nat → List Product → List Product
  | 0, _, acc => acc
  | fuel + 1, sinceId, acc =>
    let page := shopifyFindPage catalog sinceId 100
    if page.length < 100 then acc ++ page
    else
      match page.getLast? with
      | none => acc ++ page
      | some lastP => get_all_products_aux catalog fuel lastP.id (acc ++ page)

/-- `_get_all_products`, starting from `since_id = 0`. -/
def get_all_products (catalog : List Product) : List Product :=
  get_all_products_aux catalog (catalog.length + 1) 0 []

/-- `_generate_product_details` of the listing tools (get_all_products.py
lines 98-120): an insertion-ordered dict of the requested output fields. -/
def dictInsert (k v : String) (d : List (String × String)) :
    List (String × String) :=
  if d.any (fun p => p.1 = k) then
    d.map (fun p => if p.1 = k then (k, v) else p)
  else d ++ [(k, v)]

/-- Normalize one requested output field: `o.replace(' ', '_').lower()`. -/
def normField (o : String) : String :=
  toLowerStr (String.mk (o.data.map (fun c => if c = ' ' then '_' else c)))

/-- The per-product info row: known fields added in request order, unknown
fields only logged. -/
def generate_product_details_row (p : Product) (output : List String) :
    List (String × String) :=
  (output.map normField).foldl
    (fun d f =>
      if f = "product_id" then dictInsert f (toString p.id) d
      else if f = "title" then dictInsert f p.title d
      else if f = "price" then
        dictInsert f (match p.variantPrices.head? with
                      | some pr => pr
                      | none => "N/A") d
      else d) []

/-- Stable insertion by a Boolean "comes no later than" relation. -/
def insertLe {α : Type} (le : α → α → Bool) (x : α) : List α → List α
  | [] => [x]
  | y :: ys => if le x y then x :: y :: ys else y :: insertLe le x ys

/-- Stable sort by a Boolean relation (models Python's stable `list.sort`). -/
def sortLe {α : Type} (le : α → α → Bool) : List α → List α
  | [] => []
  | x :: xs => insertLe le x (sortLe le xs)

/-- `x.get(key, default)` on an info row. -/
def rowGet (row : List (String × String)) (k : String) (dflt : String) : String :=
  match row.find? (fun p => p.1 = k) with
  | some p => p.2
  | none => dflt

/-- The sorting step of `_pretty_product_info` (lines 131-144): `none`
models the uncaught exceptions (bad `sortby` unpacking, unparsable price). -/
def sortInfoRows (rows : List (List (String × String))) (sortby : String) :
    Option (List (List (String × String))) :=
  if sortby = "default" then some rows
  else
    match pySplitOnAll ['-'] sortby.data with
    | [f, dir] =>
      let fld := String.mk f
      let rev := String.mk dir = "desc"
      if fld = "alpha" then
        let key := fun r => rowGet r "title" ""
        some (sortLe (fun a b => if rev then decide (key b ≤ key a)
                                 else decide (key a ≤ key b)) rows)
      else if fld = "price" then
        match rows.mapM (fun r =>
          (parseFloat (rowGet r "price" "0")).map (fun q => (q, r))) with
        | none => none
        | some keyed =>
          some ((sortLe (fun a b => if rev then decide (b.1 ≤ a.1)
                                    else decide (a.1 ≤ b.1)) keyed).map (fun x => x.2))
      else
        let key := fun r => rowGet r fld ""
        some (sortLe (fun a b => if rev then decide (key b ≤ key a)
                                 else decide (key a ≤ key b)) rows)
    | _ => none

/-- Header names for known field keys (lines 148-152). -/
def headerName (k : String) : String :=
  if k = "product_id" then "Product ID"
  else if k = "title" then "Title"
  else if k = "price" then "Price"
  else k

/-- Model of the external `tabulate(rows, headers, tablefmt="pretty")`:
a deterministic table rendering (exact box drawing is not modelled; no
verified claim concerns it). -/
def tabulateModel (headers : List String) (rows : List (List String)) : String :=
  joinSep "\n" (joinSep " | " headers :: rows.map (joinSep " | "))

/-- `_pretty_product_info` (lines 122-166): build rows, sort, take the
header keys from the FIRST row (`product_info_list[0]`, an IndexError on an
empty catalog, modelled as `none`), tabulate, replace spaces by no-break
spaces, and prefix the count line. -/
def pretty_product_info (products : List Product) (output : List String)
    (sortby : String) : Option String :=
  let rows := products.map (fun p => generate_product_details_row p output)
  match sortInfoRows rows sortby with
  | none => none
  | some rows2 =>
    match rows2.head? with
    | none => none
    | some r0 =>
      let headers := r0.map (fun kv => headerName kv.1)
      let table := tabulateModel headers (rows2.map (fun r => r.map (fun kv => kv.2)))
      let tableNb := String.mk (table.data.map
        (fun c => if c = ' ' then Char.ofNat 160 else c))
      some ("Found " ++ toString products.length ++ " products:\n" ++ tableNb)

/-- get_all_products.py `_execute` (lines 54-74): default output fields and
sort order, enumerate, render. `none` models the crash escaping the tool. -/
def get_all_products_execute (catalog : List Product)
    (sortby : Option String) (output : Option (List String)) : Option String :=
  let out := output.getD ["Product ID", "Title", "Price"]
  let sb := sortby.getD "default"
  pretty_product_info (get_all_products catalog) out sb

/-! ## delete_product.py and the update not-found guard -/

/-- What a tool invocation can hand back to the framework: a string, a
returned (not raised) error object, or Python `None`. -/
inductive ToolResult
  | str (s : String)
  | errObj (msg : String)
  | pyNone
deriving DecidableEq

/-- Python `str.isdigit` on an identifier (ASCII model). -/
def pyIsDigitStr (s : String) : Bool :=
  !s.data.isEmpty && s.data.all Char.isDigit

/-- `_get_product_by_identifier` (delete_product.py lines 87-94): numeric
identifiers look up by id, others case-insensitively by title. -/
def get_product_by_identifier (catalog : List Product) (ident : String) :
    Option Product :=
  if pyIsDigitStr ident then
    catalog.find? (fun p => p.id = digitsVal ident.data)
  else
    catalog.find? (fun p => toLowerStr p.title = toLowerStr ident)

/-- The backup/details report of `_generate_product_details`
(delete_product.py lines 96-146); store-derived collections, metafields and
JSON dumps abbreviated, as no verified claim concerns them. -/
def render_product_details (p : Product) : String :=
  "\nTitle: " ++ p.title ++
  "\n\nDescription:\n" ++ html_to_plain_text p.body_html ++
  "\n\nProduct Type: " ++ p.product_type ++
  "\n\nVendor: " ++ p.vendor ++
  "\n\nTags: " ++ p.tags ++
  "\n\nPrice: " ++ (match p.variantPrices.head? with
                    | some pr => pr
                    | none => "None") ++
  "\n\nProduct ID: " ++ toString p.id ++ "\n"

/-- delete_product.py `_execute` (lines 45-81): on a hit, log, destroy,
back up and return the success message; on a miss, RETURN (not raise) a
ValueError object with the message. The second component counts
`product.destroy()` calls, the third store lookups. -/
def delete_execute (catalog : List Product) (product_id : String) :
    ToolResult × Nat × Nat :=
  match get_product_by_identifier catalog product_id with
  | some p =>
    (.str ("\nSuccessfully deleted Product ID: " ++ toString p.id ++
           "\nBackup written to file: \"Product ID " ++ product_id ++
           ".csv\" in the current resource manager output directory.\n\nProduct Details:\n" ++
           render_product_details p ++ "\n"), 1, 1)
  | none => (.errObj ("Product " ++ product_id ++ " not found."), 0, 1)

/-- The not-found guard of update_product.py `_execute` (lines 686-697):
one `shopify.Product.find(product_id)` lookup; when it misses, the tool
prints and returns Python `None`. `some r` is the early return, `none`
means execution continues past the guard. -/
def update_execute_notfound_guard (catalog : List Product) (product_id : Nat) :
    Option ToolResult :=
  match catalog.find? (fun p => p.id = product_id) with
  | none => some .pyNone
  | some _ => none

/-- The validation-and-persistence tail of update's `_execute` (lines
841-977): a caught validation error is formatted and returned with no save
call; otherwise the product is saved (plus two further saves when overflow
metadata exists, lines 931-932). The updated-details body of the success
message is abbreviated; no verified claim concerns it. The second component
counts `product.save()` calls. -/
def update_validate_and_save (pid : Nat) (d pt tg pr v : Option String)
    (nvars : Nat) (metas : List String) (saveOk : Bool) (saveErr : String) :
    ExecResult × Nat :=
  match update_validation d pt tg pr v nvars with
  | .error (e, _) => (.returned (format_validation_error e), 0)
  | .ok _ =>
    if !saveOk then (.returned ("Failed to save product: " ++ saveErr), 1)
    else
      let metaStr := joinSep "\n\n" metas
      let msg := "\nSuccessfully Updated Product ID: " ++ toString pid ++
        "\nBackup written to file: \"Product ID " ++ toString pid ++
        ".csv\" in the current resource manager output directory.\n"
      if metaStr = "" then (.returned msg, 1) else (.returned msg, 3)

/-- Discriminator: did `_execute` return (rather than raise)? -/
def isReturned : ExecResult → Bool
  | .returned _ => true
  | .raised _ => false

/-- Discriminator: is a tool result a plain string? -/
def isStrResult : ToolResult → Bool
  | .str _ => true
  | _ => false

/-! # Theorems -/

set_option maxRecDepth 4000 in
/-- Claim C6: for every string `s` and max length `m`, `trim_product_type`
returns `(s truncated to its first m characters, s)` when `len(s) > m` and
`(s, None)` otherwise; in particular on 300 copies of "A" with limit 255 it
returns the 255-character truncation paired with the original, and on
"short" it returns `("short", None)`. -/
theorem claim6_trim_product_type :
    (∀ (s : String) (m : Nat), trim_product_type s m =
      if s.data.length > m then (String.mk (s.data.take m), some s) else (s, none)) ∧
    trim_product_type (String.mk (List.replicate 300 'A')) 255 =
      (String.mk (List.replicate 255 'A'), some (String.mk (List.replicate 300 'A'))) ∧
    trim_product_type "short" 255 = ("short", none) := by
  refine ⟨fun s m => rfl, by decide, rfl⟩

/-- Claim C10: when title, product type and description are all empty or
None, create's `_execute` returns the fixed insufficient-information
warning with no collaborator call and no store call. -/
theorem claim10_insufficient_info_guard :
    ∀ (oracle : Nat → String) (saveOk : Bool) (saveErr : String)
      (title description product_type vendor tags price context : Option String),
      truthyOpt title = false → truthyOpt product_type = false →
      truthyOpt description = false →
      create_execute oracle saveOk saveErr title description product_type
        vendor tags price context =
        ⟨.returned insufficient_info_message, 0, 0⟩ := by
  intro oracle saveOk saveErr title description product_type vendor tags price context h1 h2 h3
  simp only [create_execute, h1, h2, h3]
  rfl

/-- Witness for C10 at a concrete invocation (title None, product type the
empty string, description None). -/
theorem claim10_witness :
    create_execute (fun _ => "reply") true "" none none (some "") none none
      none none = ⟨.returned insufficient_info_message, 0, 0⟩ :=
  claim10_insufficient_info_guard (fun _ => "reply") true "" none none
    (some "") none none none none rfl rfl rfl

/-- Claim C4 (amended): when the collaborator's reply to the first
generation call is empty, the invocation fails with the GenerationFailure
ValueError naming the task, no retry happens (exactly one collaborator
call), no save happens — but the error propagates out of `_execute` as a
raised exception instead of being returned as a string. Stated for
invocations that generate the title (title absent, guard passed). -/
theorem claim4_generation_failure_propagates :
    ∀ (oracle : Nat → String) (saveOk : Bool) (saveErr : String)
      (d pt vendor tags price context : Option String),
      (truthyOpt pt || truthyOpt d) = true →
      oracle 0 = "" →
      create_execute oracle saveOk saveErr none d pt vendor tags price context =
        ⟨.raised (genFailMsg (title_prompt d pt)), 1, 0⟩ ∧
      isReturned (create_execute oracle saveOk saveErr none d pt vendor tags
        price context).result = false := by
  intro oracle saveOk saveErr d pt vendor tags price context h h0
  have hmain : create_execute oracle saveOk saveErr none d pt vendor tags price context =
      ⟨.raised (genFailMsg (title_prompt d pt)), 1, 0⟩ := by
    cases hpt : truthyOpt pt <;> cases hd : truthyOpt d
    · rw [hpt, hd] at h; simp at h
    all_goals
      simp [create_execute, create_generation_phase, gen_info, h0, hpt, hd,
        show truthyOpt (none : Option String) = false from rfl]
  exact ⟨hmain, by rw [hmain]; rfl⟩

/-- Witness for C4 at a concrete invocation: description given, title to be
generated, collaborator returning the empty reply. -/
theorem claim4_witness :
    (truthyOpt (none : Option String) || truthyOpt (some "A nice gadget")) = true ∧
    create_execute (fun _ => "") true "" none (some "A nice gadget") none
      none none none none =
      ⟨.raised (genFailMsg (title_prompt (some "A nice gadget") none)), 1, 0⟩ :=
  ⟨by decide,
   (claim4_generation_failure_propagates (fun _ => "") true ""
     (some "A nice gadget") none none none none none (by decide) rfl).1⟩

/-- Counterexample to C4 as stated: at this invocation the generation
failure is raised past `_execute`, not reported as a returned string. -/
theorem claim4_counterexample :
    (create_execute (fun _ => "") true "" none (some "A nice gadget") none
      none none none none).result =
      .raised "AI failed to generate information for task: Write a catchy product title for a product described as A nice gadget." ∧
    isReturned (create_execute (fun _ => "") true "" none
      (some "A nice gadget") none none none none none).result = false :=
  ⟨rfl, rfl⟩

/-- Claim C7 (amended): a delete or update whose identifier matches no
record surfaces NotFound without retrying the lookup (one store lookup, no
destroy) and without raising — but the delete tool RETURNS a ValueError
object carrying "Product {id} not found." and the update tool returns
Python None; neither returns the message as a plain string. -/
theorem claim7_not_found_surfacing :
    ∀ (catalog : List Product) (ident : String) (pid : Nat),
      get_product_by_identifier catalog ident = none →
      catalog.find? (fun p => p.id = pid) = none →
      delete_execute catalog ident =
        (.errObj ("Product " ++ ident ++ " not found."), 0, 1) ∧
      update_execute_notfound_guard catalog pid = some .pyNone := by
  intro catalog ident pid h1 h2
  exact ⟨by simp [delete_execute, h1], by simp [update_execute_notfound_guard, h2]⟩

/-- Witness for C7 on the empty store. -/
theorem claim7_witness :
    delete_execute [] "42" = (.errObj "Product 42 not found.", 0, 1) ∧
    update_execute_notfound_guard [] 7 = some .pyNone :=
  claim7_not_found_surfacing [] "42" 7 rfl rfl

/-- Counterexample to C7 as stated: the miss produces a returned ValueError
object (delete) and Python None (update), neither of which is a
human-readable string result. -/
theorem claim7_counterexample :
    delete_execute [] "42" = (.errObj "Product 42 not found.", 0, 1) ∧
    isStrResult (delete_execute [] "42").1 = false ∧
    update_execute_notfound_guard [] 7 = some .pyNone ∧
    isStrResult .pyNone = false := by
  exact ⟨rfl, rfl, rfl, rfl⟩

/-- String append concatenates the underlying character lists. -/
theorem data_append (a b : String) : (a ++ b).data = a.data ++ b.data := by
  cases a; cases b; rfl

/-- The underlying list of a constructed string. -/
theorem mk_data (l : List Char) : (String.mk l).data = l := rfl

/-- The character-level layout of a validate_field message. -/
theorem vmsg_data (nm v r : String) :
    (vmsg nm v r).data =
      nm.data ++ ':' :: ':' :: '"' :: (v.data ++ '"' :: ' ' :: r.data) := by
  show ((((nm ++ "::\"") ++ v) ++ "\" ") ++ r).data = _
  simp only [data_append,
    show ("::\"" : String).data = [':', ':', '"'] from rfl,
    show ("\" " : String).data = ['"', ' '] from rfl]
  simp

/-- A list is a Boolean prefix of itself extended on the right. -/
theorem isPrefB_append (n t : List Char) : isPrefB n (n ++ t) = true := by
  induction n with
  | nil => rfl
  | cons a as ih => simp [isPrefB, ih]

/-- An explicitly decomposed occurrence witnesses the substring test. -/
theorem isInfB_decomp (n p q : List Char) : isInfB n (p ++ n ++ q) = true := by
  induction p with
  | nil =>
    cases n with
    | nil =>
      cases q with
      | nil => rfl
      | cons b bs => simp [isInfB, isPrefB]
    | cons a as =>
      have h := isPrefB_append (a :: as) q
      simp only [List.nil_append]
      show isInfB (a :: as) ((a :: as) ++ q) = true
      rw [List.cons_append, isInfB]
      rw [← List.cons_append, h]
      rfl
  | cons c p' ih =>
    simp only [List.cons_append]
    rw [isInfB]
    simp only [List.append_assoc] at ih ⊢
    rw [ih]
    simp

/-- Right-associated form of `isInfB_decomp`. -/
theorem isInfB_decomp' (n p q : List Char) : isInfB n (p ++ (n ++ q)) = true := by
  rw [← List.append_assoc]
  exact isInfB_decomp n p q

/-- A suffix occurrence witnesses the substring test. -/
theorem isInfB_suffix (n p : List Char) : isInfB n (p ++ n) = true := by
  have h := isInfB_decomp n p []
  simpa using h

/-- The substring test is preserved under extension on the left. -/
theorem isInfB_right (n p q : List Char) (h : isInfB n q = true) :
    isInfB n (p ++ q) = true := by
  induction p with
  | nil => exact h
  | cons c p' ih =>
    show isInfB n (c :: (p' ++ q)) = true
    rw [isInfB, ih]
    simp

/-- The substring test is preserved under consing on the left. -/
theorem isInfB_cons (n : List Char) (c : Char) (l : List Char)
    (h : isInfB n l = true) : isInfB n (c :: l) = true := by
  rw [isInfB, h]
  simp

/-- Splitting on "::" after a colon-free prefix finds the separator
exactly at the seam. -/
theorem splitFirstOn_no_colon :
    ∀ (A : List Char), (∀ c ∈ A, c ≠ ':') → ∀ B,
      splitFirstOn [':', ':'] (A ++ ':' :: ':' :: B) = some (A, B) := by
  intro A
  induction A with
  | nil =>
    intro _ B
    show splitFirstOn [':', ':'] (':' :: ':' :: B) = some ([], B)
    rw [splitFirstOn]
    simp [isPrefB]
  | cons c A' ih =>
    intro hA B
    have hc : c ≠ ':' := hA c (List.mem_cons_self ..)
    have hA' : ∀ x ∈ A', x ≠ ':' := fun x hx => hA x (List.mem_cons_of_mem _ hx)
    show splitFirstOn [':', ':'] (c :: (A' ++ ':' :: ':' :: B)) = some (c :: A', B)
    rw [splitFirstOn]
    have hpref : isPrefB [':', ':'] (c :: (A' ++ ':' :: ':' :: B)) = false := by
      simp only [isPrefB, Bool.and_eq_false_iff]
      left
      simp [Ne.symm hc]
    rw [hpref]
    simp [ih hA' B]

/-- Splitting on the first space of `u ++ ' ' :: r` yields a remainder that
still ends in `r`. -/
theorem splitFirst_space_suffix :
    ∀ (u r : List Char), ∃ p q : List Char,
      splitFirstOn [' '] (u ++ ' ' :: r) = some (p, q) ∧ ∃ pre, q = pre ++ r := by
  intro u
  induction u with
  | nil =>
    intro r
    refine ⟨[], r, ?_, [], rfl⟩
    show splitFirstOn [' '] (' ' :: r) = some ([], r)
    rw [splitFirstOn]
    simp [isPrefB]
  | cons c u' ih =>
    intro r
    by_cases hc : c = ' '
    · subst hc
      refine ⟨[], u' ++ ' ' :: r, ?_, u' ++ [' '], by simp⟩
      show splitFirstOn [' '] (' ' :: (u' ++ ' ' :: r)) = some ([], u' ++ ' ' :: r)
      rw [splitFirstOn]
      simp [isPrefB]
    · obtain ⟨p, q, h1, pre, h2⟩ := ih r
      refine ⟨c :: p, q, ?_, pre, h2⟩
      show splitFirstOn [' '] (c :: (u' ++ ' ' :: r)) = some (c :: p, q)
      rw [splitFirstOn]
      have hpref : isPrefB [' '] (c :: (u' ++ ' ' :: r)) = false := by
        simp only [isPrefB, Bool.and_eq_false_iff]
        left
        simp [Ne.symm hc]
      rw [hpref]
      simp [h1]

/-- Unfolding lemma for `pySplitOnN` when the separator occurs. -/
theorem pySplitOnN_found (sep : List Char) (l A B : List Char) (n : Nat)
    (h : splitFirstOn sep l = some (A, B)) :
    pySplitOnN sep (n + 1) l = A :: pySplitOnN sep n B := by
  show (match splitFirstOn sep l with
        | none => [l]
        | some (p, q) => p :: pySplitOnN sep n q) = A :: pySplitOnN sep n B
  rw [h]

/-- Unfolding lemma for `pySplitOnN` when the separator is absent. -/
theorem pySplitOnN_notfound (sep : List Char) (l : List Char) (n : Nat)
    (h : splitFirstOn sep l = none) :
    pySplitOnN sep (n + 1) l = [l] := by
  show (match splitFirstOn sep l with
        | none => [l]
        | some (p, q) => p :: pySplitOnN sep n q) = [l]
  rw [h]

/-- The formatted validation-error string contains the field name and the
reason of any message in the validate_field layout, whatever the value. -/
theorem format_names (nm w r : String) (hnm : ∀ c ∈ nm.data, c ≠ ':') :
    isInfB nm.data (format_validation_error (vmsg nm w r)).data = true ∧
    isInfB r.data (format_validation_error (vmsg nm w r)).data = true := by
  have hsplit2 := splitFirstOn_no_colon nm.data hnm
    ('"' :: (w.data ++ '"' :: ' ' :: r.data))
  rw [format_validation_error, vmsg_data,
    show (2 : Nat) = 1 + 1 from rfl,
    pySplitOnN_found _ _ _ _ _ hsplit2]
  cases hq : splitFirstOn [':', ':'] ('"' :: (w.data ++ '"' :: ' ' :: r.data)) with
  | some pq =>
    obtain ⟨p1, q1⟩ := pq
    rw [show (1 : Nat) = 0 + 1 from rfl, pySplitOnN_found _ _ _ _ _ hq]
    show isInfB nm.data ("Validation error: " ++ vmsg nm w r).data = true ∧
      isInfB r.data ("Validation error: " ++ vmsg nm w r).data = true
    constructor
    · rw [data_append, vmsg_data]
      exact isInfB_right _ _ _ (isInfB_decomp nm.data [] _)
    · rw [data_append, vmsg_data]
      refine isInfB_right _ _ _ (isInfB_right _ _ _ ?_)
      refine isInfB_cons _ _ _ (isInfB_cons _ _ _ (isInfB_cons _ _ _ ?_))
      refine isInfB_right _ _ _ ?_
      refine isInfB_cons _ _ _ (isInfB_cons _ _ _ ?_)
      exact isInfB_suffix r.data []
  | none =>
    rw [show (1 : Nat) = 0 + 1 from rfl, pySplitOnN_notfound _ _ _ hq]
    have hB : ('"' :: (w.data ++ '"' :: ' ' :: r.data)) =
        ('"' :: (w.data ++ ['"'])) ++ ' ' :: r.data := by simp
    obtain ⟨p, q, hsp, pre, hqr⟩ :=
      splitFirst_space_suffix ('"' :: (w.data ++ ['"'])) r.data
    rw [hB]
    show isInfB nm.data
        ((match pySplitOnN [' '] (0 + 1) ('"' :: (w.data ++ ['"']) ++ ' ' :: r.data) with
          | [v, err] =>
            "Validation error in field '" ++ String.mk nm.data ++ "' with value '" ++
              String.mk (v.filter (fun c => decide (c ≠ '"'))) ++ "': " ++ String.mk err
          | _ => "Validation error: " ++ vmsg nm w r)).data = true ∧
      isInfB r.data
        ((match pySplitOnN [' '] (0 + 1) ('"' :: (w.data ++ ['"']) ++ ' ' :: r.data) with
          | [v, err] =>
            "Validation error in field '" ++ String.mk nm.data ++ "' with value '" ++
              String.mk (v.filter (fun c => decide (c ≠ '"'))) ++ "': " ++ String.mk err
          | _ => "Validation error: " ++ vmsg nm w r)).data = true
    rw [pySplitOnN_found _ _ _ _ _ hsp]
    show isInfB nm.data
        ("Validation error in field '" ++ String.mk nm.data ++ "' with value '" ++
          String.mk (p.filter (fun c => decide (c ≠ '"'))) ++ "': " ++
          String.mk q).data = true ∧
      isInfB r.data
        ("Validation error in field '" ++ String.mk nm.data ++ "' with value '" ++
          String.mk (p.filter (fun c => decide (c ≠ '"'))) ++ "': " ++
          String.mk q).data = true
    constructor
    · simp only [data_append, mk_data, List.append_assoc]
      exact isInfB_right _ _ _ (isInfB_decomp nm.data [] _)
    · simp only [data_append, mk_data, List.append_assoc, hqr]
      refine isInfB_right _ _ _ (isInfB_right _ _ _ (isInfB_right _ _ _
        (isInfB_right _ _ _ (isInfB_right _ _ _ (isInfB_right _ _ _ ?_)))))
      exact isInfB_suffix r.data []

/-- Every string-field validation error message has the vmsg layout. -/
theorem validate_field_string_error_shape {value : String} {max_length : Nat}
    {nm : String} {req : Bool} {e : String}
    (h : validate_field_string value max_length nm req = .error e) :
    ∃ w r, e = vmsg nm w r := by
  unfold validate_field_string at h
  split_ifs at h
  · injection h with h'; exact ⟨_, _, h'.symm⟩
  · injection h with h'; exact ⟨_, _, h'.symm⟩
  · injection h with h'; exact ⟨_, _, h'.symm⟩

/-- Every html-field validation error message has the vmsg layout. -/
theorem validate_field_html_error_shape {value : String} {max_length : Nat}
    {nm : String} {req : Bool} {e : String}
    (h : validate_field_html value max_length nm req = .error e) :
    ∃ w r, e = vmsg nm w r := by
  unfold validate_field_html at h
  split_ifs at h
  · injection h with h'; exact ⟨_, _, h'.symm⟩
  · injection h with h'; exact ⟨_, _, h'.symm⟩
  · injection h with h'; exact ⟨_, _, h'.symm⟩

/-- Every price-field validation error message has the vmsg layout. -/
theorem validate_field_price_error_shape {value : String ⊕ ℚ}
    {max_length : Nat} {nm : String} {req : Bool} {e : String}
    (h : validate_field_price value max_length nm req = .error e) :
    ∃ w r, e = vmsg nm w r := by
  unfold validate_field_price at h
  split_ifs at h
  · injection h with h'; exact ⟨_, _, h'.symm⟩
  · split at h
    · injection h with h'; exact ⟨_, _, h'.symm⟩
    · split_ifs at h
      injection h with h'; exact ⟨_, _, h'.symm⟩

/-- Every error of the per-variant price loop has the vmsg layout with
field name "Price". -/
theorem validate_price_variants_error_shape :
    ∀ (n : Nat) (p : String) (e : String),
      validate_price_variants p n = .error e → ∃ w r, e = vmsg "Price" w r := by
  intro n
  induction n with
  | zero => intro p e h; exact Except.noConfusion h
  | succ k ih =>
    intro p e h
    rw [validate_price_variants] at h
    cases hv : validate_field_price (.inl p) 255 "Price" true with
    | error e0 =>
      rw [hv] at h
      injection h with h'
      rw [← h']
      exact validate_field_price_error_shape hv
    | ok u =>
      rw [hv] at h
      exact ih p e h

/-- A mapped Except is an error exactly when the original is. -/
theorem except_map_error {α β : Type} {f : α → β} {x : Except String α}
    {e : String} (h : x.map f = .error e) : x = .error e := by
  cases x with
  | error e0 =>
    injection h with h'
    rw [h']
  | ok a => exact Except.noConfusion h

/-- An erroring vstep was present, its validator errored, and its name ends
the trace. -/
theorem vstep_error_elim {p : Bool} {nm : String} {r : Except String Unit}
    {tr : List String} {e : String} {tr' : List String}
    (h : vstep p nm r tr = .error (e, tr')) :
    p = true ∧ r = .error e ∧ tr' = tr ++ [nm] := by
  unfold vstep at h
  split_ifs at h with hp
  cases hr : r with
  | error e0 =>
    rw [hr] at h
    injection h with h'
    simp only [Prod.mk.injEq] at h'
    obtain ⟨he, ht⟩ := h'
    exact ⟨hp, by rw [he], ht.symm⟩
  | ok u =>
    rw [hr] at h
    exact Except.noConfusion h

/-- A succeeding vstep either ran its validator (extending the trace) or
was skipped. -/
theorem vstep_ok_elim {p : Bool} {nm : String} {r : Except String Unit}
    {tr tr' : List String} (h : vstep p nm r tr = .ok tr') :
    (p = true ∧ tr' = tr ++ [nm]) ∨ (p = false ∧ tr' = tr) := by
  unfold vstep at h
  split_ifs at h with hp
  · cases hr : r with
    | error e0 =>
      rw [hr] at h
      exact Except.noConfusion h
    | ok u =>
      rw [hr] at h
      injection h with h'
      exact Or.inl ⟨hp, h'.symm⟩
  · injection h with h'
    exact Or.inr ⟨Bool.eq_false_iff.mpr hp, h'.symm⟩

/-- chainOrder of a present step conses its name. -/
theorem chainOrder_cons_true (nm : String) (r : Except String Unit)
    (rest : List (Bool × String × Except String Unit)) :
    chainOrder ((true, nm, r) :: rest) = nm :: chainOrder rest := by
  simp [chainOrder]

/-- chainOrder of a skipped step is unchanged. -/
theorem chainOrder_cons_false (nm : String) (r : Except String Unit)
    (rest : List (Bool × String × Except String Unit)) :
    chainOrder ((false, nm, r) :: rest) = chainOrder rest := by
  simp [chainOrder]

/-- An erroring vchain fails at the first erroring present step: the trace
is the corresponding prefix of the validated-field order, ending with the
failing field, whose validator produced the error. -/
theorem vchain_error :
    ∀ (steps : List (Bool × String × Except String Unit)) (tr0 : List String)
      (e : String) (tr : List String),
      vchain steps tr0 = .error (e, tr) →
      ∃ k nm r, 0 < k ∧ tr = tr0 ++ (chainOrder steps).take k ∧
        ((chainOrder steps).take k).getLast? = some nm ∧
        (true, nm, r) ∈ steps ∧ r = .error e := by
  intro steps
  induction steps with
  | nil => intro tr0 e tr h; exact Except.noConfusion h
  | cons s rest ih =>
    intro tr0 e tr h
    obtain ⟨p, nm0, r0⟩ := s
    rw [vchain] at h
    cases hv : vstep p nm0 r0 tr0 with
    | error x =>
      rw [hv] at h
      injection h with h'
      rw [h'] at hv
      obtain ⟨hp, hr, htr⟩ := vstep_error_elim hv
      subst hp
      refine ⟨1, nm0, r0, Nat.one_pos, ?_, ?_, List.mem_cons_self .., hr⟩
      · rw [chainOrder_cons_true, htr]
        rfl
      · rw [chainOrder_cons_true]
        rfl
    | ok tr1 =>
      rw [hv] at h
      obtain ⟨k, nm, r, hk, htr, hlast, hmem, hre⟩ := ih tr1 e tr h
      rcases vstep_ok_elim hv with ⟨hp, htr1⟩ | ⟨hp, htr1⟩
      · subst hp
        refine ⟨k + 1, nm, r, by omega, ?_, ?_,
          List.mem_cons_of_mem _ hmem, hre⟩
        · rw [chainOrder_cons_true, List.take_succ_cons, htr, htr1]
          simp
        · rw [chainOrder_cons_true, List.take_succ_cons]
          cases hco : (chainOrder rest).take k with
          | nil =>
            rw [hco] at hlast
            exact Option.noConfusion hlast
          | cons a l =>
            rw [List.getLast?_cons_cons, ← hco, hlast]
      · subst hp
        rw [chainOrder_cons_false]
        exact ⟨k, nm, r, hk, by rw [htr, htr1], hlast,
          List.mem_cons_of_mem _ hmem, hre⟩

/-- The default-carrying last element agrees with `getLast?`. -/
theorem getLastD_of_getLast? {α : Type} {l : List α} {a : α} (b : α)
    (h : l.getLast? = some a) : l.getLastD b = a := by
  rw [List.getLastD_eq_getLast?, h]
  rfl

/-- The validated-field order of update's steps is `updateFieldOrder`. -/
theorem chainOrder_updateSteps (d pt tg pr v : Option String) (nvars : Nat) :
    chainOrder (updateSteps d pt tg pr v nvars) =
      updateFieldOrder d pt tg pr v nvars := by
  cases h1 : truthyOpt d <;> cases h2 : truthyOpt pt <;>
    cases h3 : truthyOpt tg <;>
    cases h4 : (truthyOpt pr && decide (0 < nvars)) <;>
    cases h5 : truthyOpt v <;>
    simp [chainOrder, updateSteps, updateFieldOrder, h1, h2, h3, h4, h5]

/-- Packaging of the naming facts of claim C3 from a message shape and the
trace's last element. -/
theorem claim3_name_pack (nm : String) (hnm : ∀ c ∈ nm.data, c ≠ ':')
    {e : String} (hshape : ∃ w r, e = vmsg nm w r) {tr : List String}
    (hlast : tr.getLastD "" = nm) :
    ∃ w r, e = vmsg (tr.getLastD "") w r ∧
      isInfB (tr.getLastD "").data (format_validation_error e).data = true ∧
      isInfB r.data (format_validation_error e).data = true := by
  obtain ⟨w, r, hw⟩ := hshape
  subst hw
  rw [hlast]
  exact ⟨w, r, rfl, (format_names nm w r hnm).1, (format_names nm w r hnm).2⟩

/-- Claim C3 (amended): a failing field validation short-circuits the
operation before any save: create's `_execute` returns the formatted
validation-error string with zero save calls, the validated-field trace is
a non-empty prefix of the field order ending at the failing field, and the
returned string names the failing field and the reason (the offending
value is reported only up to its first space); likewise for update's
validation-and-save tail. -/
theorem claim3_validation_short_circuit :
    (∀ (oracle : Nat → String) (saveOk : Bool) (saveErr : String)
       (title d0 pt0 vend0 tg0 pr0 ctx : Option String)
       (g : CreateGenOut) (n : Nat) (e : String) (tr : List String),
       (!truthyOpt title && !truthyOpt pt0 && !truthyOpt d0) = false →
       create_generation_phase oracle title d0 pt0 vend0 tg0 pr0 ctx = .ok (g, n) →
       create_validation g.description g.ptype g.tags g.price g.vendor =
         .error (e, tr) →
       create_execute oracle saveOk saveErr title d0 pt0 vend0 tg0 pr0 ctx =
         ⟨.returned (format_validation_error e), n, 0⟩ ∧
       (∃ k, 0 < k ∧ k ≤ 5 ∧ tr = createFieldOrder.take k) ∧
       (∃ w r, e = vmsg (tr.getLastD "") w r ∧
         isInfB (tr.getLastD "").data (format_validation_error e).data = true ∧
         isInfB r.data (format_validation_error e).data = true)) ∧
    (∀ (pid : Nat) (d pt tg pr v : Option String) (nvars : Nat)
       (metas : List String) (saveOk : Bool) (saveErr : String)
       (e : String) (tr : List String),
       update_validation d pt tg pr v nvars = .error (e, tr) →
       update_validate_and_save pid d pt tg pr v nvars metas saveOk saveErr =
         (.returned (format_validation_error e), 0) ∧
       (∃ k, 0 < k ∧ tr = (updateFieldOrder d pt tg pr v nvars).take k) ∧
       (∃ w r, e = vmsg (tr.getLastD "") w r ∧
         isInfB (tr.getLastD "").data (format_validation_error e).data = true ∧
         isInfB r.data (format_validation_error e).data = true)) := by
  constructor
  · intro oracle saveOk saveErr title d0 pt0 vend0 tg0 pr0 ctx g n e tr
      hguard hgen hval
    refine ⟨?_, ?_⟩
    · simp only [create_execute, hguard, Bool.false_eq_true, if_false, hgen, hval]
    · unfold create_validation at hval
      cases h1 : validate_field_html g.description 65535 "Description" true with
      | error e1 =>
        rw [h1] at hval
        injection hval with h'
        simp only [Prod.mk.injEq] at h'
        obtain ⟨he, ht⟩ := h'
        refine ⟨⟨1, by omega, by omega, ht.symm⟩, ?_⟩
        exact claim3_name_pack "Description" (by decide)
          (he ▸ validate_field_html_error_shape h1) (by rw [← ht]; rfl)
      | ok d' =>
        rw [h1] at hval
        cases h2 : validate_field_string g.ptype 255 "Product type" true with
        | error e1 =>
          rw [h2] at hval
          injection hval with h'
          simp only [Prod.mk.injEq] at h'
          obtain ⟨he, ht⟩ := h'
          refine ⟨⟨2, by omega, by omega, ht.symm⟩, ?_⟩
          exact claim3_name_pack "Product type" (by decide)
            (he ▸ validate_field_string_error_shape h2) (by rw [← ht]; rfl)
        | ok pt' =>
          rw [h2] at hval
          cases h3 : validate_field_string g.tags 255 "Tags" false with
          | error e1 =>
            rw [h3] at hval
            injection hval with h'
            simp only [Prod.mk.injEq] at h'
            obtain ⟨he, ht⟩ := h'
            refine ⟨⟨3, by omega, by omega, ht.symm⟩, ?_⟩
            exact claim3_name_pack "Tags" (by decide)
              (he ▸ validate_field_string_error_shape h3) (by rw [← ht]; rfl)
          | ok tg' =>
            rw [h3] at hval
            cases h4 : validate_field_price g.price 255 "Price" true with
            | error e1 =>
              rw [h4] at hval
              injection hval with h'
              simp only [Prod.mk.injEq] at h'
              obtain ⟨he, ht⟩ := h'
              refine ⟨⟨4, by omega, by omega, ht.symm⟩, ?_⟩
              exact claim3_name_pack "Price" (by decide)
                (he ▸ validate_field_price_error_shape h4) (by rw [← ht]; rfl)
            | ok pq =>
              rw [h4] at hval
              cases h5 : validate_field_string g.vendor 255 "Vendor" true with
              | error e1 =>
                rw [h5] at hval
                injection hval with h'
                simp only [Prod.mk.injEq] at h'
                obtain ⟨he, ht⟩ := h'
                refine ⟨⟨5, by omega, by omega, ht.symm⟩, ?_⟩
                exact claim3_name_pack "Vendor" (by decide)
                  (he ▸ validate_field_string_error_shape h5) (by rw [← ht]; rfl)
              | ok v' =>
                rw [h5] at hval
                exact Except.noConfusion hval
  · intro pid d pt tg pr v nvars metas saveOk saveErr e tr h
    obtain ⟨k, nm, r, hk, htr, hlast, hmem, hre⟩ :=
      vchain_error (updateSteps d pt tg pr v nvars) [] e tr h
    rw [chainOrder_updateSteps] at htr hlast
    rw [List.nil_append] at htr
    have hgl : tr.getLastD "" = nm := by
      rw [htr]
      exact getLastD_of_getLast? "" hlast
    refine ⟨?_, ⟨k, hk, htr⟩, ?_⟩
    · simp only [update_validate_and_save, h]
    · simp only [updateSteps, List.mem_cons, List.not_mem_nil, or_false,
        Prod.mk.injEq] at hmem
      rcases hmem with ⟨_, hn, hr⟩ | ⟨_, hn, hr⟩ | ⟨_, hn, hr⟩ |
        ⟨_, hn, hr⟩ | ⟨_, hn, hr⟩
      · exact claim3_name_pack "Description" (by decide)
          (validate_field_html_error_shape
            (except_map_error (hr.symm.trans hre))) (hgl.trans hn)
      · exact claim3_name_pack "Product type" (by decide)
          (validate_field_string_error_shape
            (except_map_error (hr.symm.trans hre))) (hgl.trans hn)
      · exact claim3_name_pack "Tags" (by decide)
          (validate_field_string_error_shape
            (except_map_error (hr.symm.trans hre))) (hgl.trans hn)
      · exact claim3_name_pack "Price" (by decide)
          (validate_price_variants_error_shape _ _ _
            (hr.symm.trans hre)) (hgl.trans hn)
      · exact claim3_name_pack "Vendor" (by decide)
          (validate_field_string_error_shape
            (except_map_error (hr.symm.trans hre))) (hgl.trans hn)

/-- Witness for C3 at a concrete create invocation whose tags fail the
character whitelist: the formatted error is returned with no save. -/
theorem claim3_witness :
    create_execute (fun _ => "reply") true "" (some "T") (some "<p>ok</p>")
      (some "Gadget") (some "Acme") (some "a€ b") (some "10") none =
      ⟨.returned (format_validation_error
        (vmsg "Tags" "a€ b" "contains inappropriate characters.")), 0, 0⟩ :=
  (claim3_validation_short_circuit.1 (fun _ => "reply") true "" (some "T")
    (some "<p>ok</p>") (some "Gadget") (some "Acme") (some "a€ b")
    (some "10") none
    ⟨"T", "<p>ok</p>", "Gadget", "a€ b", .inl "10", none, none, none,
      "Acme", none⟩ 0
    (vmsg "Tags" "a€ b" "contains inappropriate characters.")
    (createFieldOrder.take 3) rfl rfl rfl).1

/-- Counterexample to C3 as stated: the first validation failure on the
tags value "a€ b" produces a returned error string that does NOT contain
the offending value — the parser truncates it at its first space. -/
theorem claim3_counterexample :
    create_validation "<p>ok</p>" "Gadget" "a€ b" (.inl "10") "Acme" =
      .error (vmsg "Tags" "a€ b" "contains inappropriate characters.",
        createFieldOrder.take 3) ∧
    isInfB "a€ b".data
      (format_validation_error
        (vmsg "Tags" "a€ b" "contains inappropriate characters.")).data =
      false := by
  exact ⟨rfl, by decide⟩

/-- Filtering above a larger bound factors through filtering above a
smaller one. -/
theorem filter_gt_trans (l : List Product) (a b : Nat) (hab : a ≤ b) :
    l.filter (fun p => b < p.id) =
      (l.filter (fun p => a < p.id)).filter (fun p => b < p.id) := by
  rw [List.filter_filter]
  apply List.filter_congr
  intro x _
  cases hb : (decide (b < x.id)) with
  | false => simp
  | true =>
    have : a < x.id := lt_of_le_of_lt hab (of_decide_eq_true hb)
    simp [this]

/-- In a strictly id-sorted list, the elements beyond the last element of a
non-empty `take m` prefix are exactly the elements with larger id. -/
theorem sorted_filter_eq_drop :
    ∀ (R : List Product), R.Pairwise (fun x y => x.id < y.id) →
      ∀ (m : Nat), 0 < m → m ≤ R.length →
        ∀ p, (R.take m).getLast? = some p →
          R.filter (fun x => p.id < x.id) = R.drop m := by
  intro R
  induction R with
  | nil =>
    intro _ m hm hml p _
    simp at hml
    omega

  | cons r R' ih =>
    intro hs m hm hml p hp
    have hhead : ∀ x ∈ R', r.id < x.id := fun x hx => List.rel_of_pairwise_cons hs hx
    match m, hm with
    | 1, _ =>
      have hpr : p = r := by
        change ([r] : List Product).getLast? = some p at hp
        simp only [List.getLast?_singleton, Option.some.injEq] at hp
        exact hp.symm
      subst hpr
      rw [List.drop_one, List.tail_cons, List.filter_cons]
      have : ¬ p.id < p.id := lt_irrefl _
      simp only [this, decide_eq_true_eq, if_neg]
      simp only [decide_eq_false this, Bool.false_eq_true, if_false]
      apply List.filter_eq_self.mpr
      intro x hx
      exact decide_eq_true (hhead x hx)
    | (m' + 1 + 1), _ =>
      have hml' : m' + 1 ≤ R'.length := by
        have hc := hml
        rw [List.length_cons] at hc
        omega
      cases ht : R'.take (m' + 1) with
      | nil =>
        have hlen := congrArg List.length ht
        rw [List.length_take, min_eq_left hml'] at hlen
        simp at hlen
      | cons a l =>
        have hp' : (R'.take (m' + 1)).getLast? = some p := by
          change (r :: List.take (m' + 1) R').getLast? = some p at hp
          rw [ht, List.getLast?_cons_cons] at hp
          rw [ht]
          exact hp
        have hdrop := ih (List.Pairwise.of_cons hs) (m' + 1) (Nat.succ_pos m') hml' p hp'
        have hpR : p ∈ R' :=
          List.mem_of_mem_take (List.mem_of_mem_getLast? hp')
        have hrp : r.id < p.id := hhead p hpR
        rw [List.drop_succ_cons, List.filter_cons]
        have : ¬ p.id < r.id := by omega
        simp only [decide_eq_false this, Bool.false_eq_true, if_false]
        exact hdrop

/-- The pagination loop with sufficient fuel accumulates exactly the
products beyond `sinceId`, in catalog order. -/
theorem get_all_products_aux_eq (catalog : List Product)
    (hs : catalog.Pairwise (fun a b => a.id < b.id)) :
    ∀ (fuel sinceId : Nat) (acc : List Product),
      (catalog.filter (fun p => sinceId < p.id)).length < fuel * 100 →
      get_all_products_aux catalog fuel sinceId acc =
        acc ++ catalog.filter (fun p => sinceId < p.id) := by
  intro fuel
  induction fuel with
  | zero =>
    intro sinceId acc h
    simp at h
  | succ n ih =>
    intro sinceId acc hbound
    rw [get_all_products_aux]
    by_cases hR : (catalog.filter (fun p => sinceId < p.id)).length < 100
    · have htake : shopifyFindPage catalog sinceId 100 =
          catalog.filter (fun p => sinceId < p.id) := by
        rw [shopifyFindPage]
        exact List.take_of_length_le (Nat.le_of_lt hR)
      rw [htake, if_pos hR]
    · have h100 : 100 ≤ (catalog.filter (fun p => sinceId < p.id)).length :=
        Nat.le_of_not_lt hR
      have hplen : (shopifyFindPage catalog sinceId 100).length = 100 := by
        rw [shopifyFindPage, List.length_take]
        omega
      rw [if_neg (by omega)]
      cases hlp : (shopifyFindPage catalog sinceId 100).getLast? with
      | none =>
        rw [List.getLast?_eq_none_iff] at hlp
        rw [hlp] at hplen
        simp at hplen
      | some lastP =>
        have hmem : lastP ∈ catalog.filter (fun p => sinceId < p.id) := by
          have := List.mem_of_mem_getLast? hlp
          rw [shopifyFindPage] at this
          exact List.mem_of_mem_take this
        have hslt : sinceId < lastP.id := by
          have h2 := List.of_mem_filter hmem
          exact of_decide_eq_true h2
        have hRs : (catalog.filter (fun p => sinceId < p.id)).Pairwise
            (fun a b => a.id < b.id) := hs.filter _
        have hdrop : catalog.filter (fun p => lastP.id < p.id) =
            (catalog.filter (fun p => sinceId < p.id)).drop 100 := by
          rw [filter_gt_trans catalog sinceId lastP.id (Nat.le_of_lt hslt)]
          exact sorted_filter_eq_drop _ hRs 100 (by omega) h100 lastP
            (by rw [← shopifyFindPage]; exact hlp)
        have hnext := ih lastP.id (acc ++ shopifyFindPage catalog sinceId 100)
          (by rw [hdrop, List.length_drop]; omega)
        show get_all_products_aux catalog n lastP.id
            (acc ++ shopifyFindPage catalog sinceId 100) =
          acc ++ List.filter (fun p => decide (sinceId < p.id)) catalog
        rw [hnext, hdrop, List.append_assoc]
        rw [shopifyFindPage]
        rw [List.take_append_drop]

/-- Claim C8: `_get_all_products` pages through the store in chunks of at
most 100 whose members all exceed the requested `since_id`, and over an
id-sorted catalog of positive ids it terminates and returns every product
exactly once, in catalog order. -/
theorem claim8_pagination :
    ∀ catalog : List Product,
      catalog.Pairwise (fun a b => a.id < b.id) →
      (∀ p ∈ catalog, 0 < p.id) →
      (∀ sinceId, (shopifyFindPage catalog sinceId 100).length ≤ 100 ∧
        ∀ p ∈ shopifyFindPage catalog sinceId 100, sinceId < p.id) ∧
      get_all_products catalog = catalog := by
  intro catalog hs hpos
  constructor
  · intro sinceId
    constructor
    · rw [shopifyFindPage, List.length_take]
      omega
    · intro p hp
      rw [shopifyFindPage] at hp
      have h1 : p ∈ catalog.filter (fun q => sinceId < q.id) :=
        List.mem_of_mem_take hp
      have h2 := List.of_mem_filter h1
      exact of_decide_eq_true h2
  · have hself : catalog.filter (fun p => 0 < p.id) = catalog :=
      List.filter_eq_self.mpr (fun p hp => decide_eq_true (hpos p hp))
    have hb : (catalog.filter (fun p => 0 < p.id)).length <
        (catalog.length + 1) * 100 := by
      rw [hself]
      omega
    rw [get_all_products, get_all_products_aux_eq catalog hs _ 0 [] hb, hself,
      List.nil_append]

/-- Witness for C8 on a concrete two-product catalog. -/
theorem claim8_witness :
    get_all_products
      [⟨1, "a", "", "", "", "", []⟩, ⟨2, "b", "", "", "", "", []⟩] =
      [⟨1, "a", "", "", "", "", []⟩, ⟨2, "b", "", "", "", "", []⟩] :=
  (claim8_pagination _ (by simp) (by simp)).2

/-- The greedy accumulation loop of trim_tags keeps and overflows whole
tags only: both output lists are sublists of the input, every input tag
lands in one of them, and the running accumulator never exceeds the
budget. -/
theorem trimTagsFold_props (m : Nat) :
    ∀ (ts : List String) (len : Nat), len ≤ m →
      (∀ t ∈ ts, t ∈ (trimTagsFold m ts len).1 ∨ t ∈ (trimTagsFold m ts len).2) ∧
      (trimTagsFold m ts len).1.Sublist ts ∧
      (trimTagsFold m ts len).2.Sublist ts ∧
      codeLenFrom len (trimTagsFold m ts len).1 ≤ m := by
  intro ts
  induction ts with
  | nil =>
    intro len h
    exact ⟨fun t ht => (List.not_mem_nil t ht).elim,
      List.Sublist.refl _, List.Sublist.refl _, h⟩
  | cons t ts ih =>
    intro len hlen
    by_cases hc : t.data.length + len + (if 0 < len then 2 else 0) > m
    · obtain ⟨ihm, ihk, iho, ihl⟩ := ih len hlen
      rw [trimTagsFold]
      simp only [hc, if_true]
      refine ⟨?_, ihk.cons t, iho.cons₂ t, ihl⟩
      intro u hu
      rcases List.mem_cons.mp hu with hu | hu
      · rw [hu]; exact Or.inr (List.mem_cons_self ..)
      · rcases ihm u hu with h1 | h1
        · exact Or.inl h1
        · exact Or.inr (List.mem_cons_of_mem _ h1)
    · have hle : t.data.length + len + (if 0 < len then 2 else 0) ≤ m :=
        Nat.le_of_not_lt hc
      obtain ⟨ihm, ihk, iho, ihl⟩ := ih _ hle
      rw [trimTagsFold]
      simp only [hc, if_false]
      refine ⟨?_, ihk.cons₂ t, iho.cons t, ?_⟩
      · intro u hu
        rcases List.mem_cons.mp hu with hu | hu
        · rw [hu]; exact Or.inl (List.mem_cons_self ..)
        · rcases ihm u hu with h1 | h1
          · exact Or.inl (List.mem_cons_of_mem _ h1)
          · exact Or.inr h1
      · show codeLenFrom len (t :: (trimTagsFold m ts _).1) ≤ m
        rw [codeLenFrom, List.foldl_cons]
        exact ihl

/-- Once the accumulator is positive, the code's accounting is the plain
separator accounting offset by the start value. -/
theorem codeLenFrom_pos (k : List String) :
    ∀ len, 0 < len →
      codeLenFrom len k =
        len + (k.map (fun t => t.data.length)).sum + 2 * k.length := by
  induction k with
  | nil => intro len _; simp [codeLenFrom]
  | cons t ks ih =>
    intro len h
    have hstep : codeLenFrom len (t :: ks) =
        codeLenFrom (t.data.length + len + 2) ks := by
      rw [codeLenFrom, List.foldl_cons, if_pos h]
      rfl
    rw [hstep, ih _ (by omega)]
    simp only [List.map_cons, List.sum_cons, List.length_cons]
    omega

/-- With no empty kept tag, the code's accounting from 0 coincides with
the spec's separator accounting. -/
theorem codeLenFrom_no_empty (k : List String) (h : ("" : String) ∉ k) :
    codeLenFrom 0 k = spec_sep_len k := by
  cases k with
  | nil => rfl
  | cons t ks =>
    have ht : t ≠ "" := by
      intro e
      exact h (by rw [e]; exact List.mem_cons_self ..)
    have hlen : 0 < t.data.length := by
      cases hd : t.data with
      | nil =>
        exact absurd (by cases t with | mk l => cases hd; rfl) ht
      | cons c l => simp [hd]
    have e0 : t.data.length + 0 + (if (0 : Nat) < 0 then 2 else 0) = t.data.length := by
      norm_num
    have hstep : codeLenFrom 0 (t :: ks) = codeLenFrom t.data.length ks := by
      rw [codeLenFrom, List.foldl_cons, e0]
      rfl
    rw [hstep, codeLenFrom_pos ks _ hlen, spec_sep_len]

/-- Claim C2 (amended): trim_tags never splits a tag: kept and overflow
lists are order-preserving complementary selections from the processed tag
list (so their union is a superset of the processed tags, in original
order); the code's running accounting — which charges the 2-character
separator only while the running total is positive, so empty tags kept at
total 0 escape it — never exceeds the budget, and when no kept tag is the
empty string this equals the spec's per-tag-plus-separator accounting; the
returned strings are the comma+space joins of the two lists. -/
theorem claim2_trim_tags :
    ∀ (s : String) (m : Nat),
      (∀ t ∈ processedTags s,
        t ∈ (trim_tags_lists s m).1 ∨ t ∈ (trim_tags_lists s m).2) ∧
      (trim_tags_lists s m).1.Sublist (processedTags s) ∧
      (trim_tags_lists s m).2.Sublist (processedTags s) ∧
      codeLenFrom 0 (trim_tags_lists s m).1 ≤ m ∧
      (("" : String) ∉ (trim_tags_lists s m).1 →
        spec_sep_len (trim_tags_lists s m).1 ≤ m) ∧
      trim_tags s m =
        (joinSep ", " (trim_tags_lists s m).1,
         if (trim_tags_lists s m).2.isEmpty then none
         else some (joinSep ", " (trim_tags_lists s m).2)) := by
  intro s m
  obtain ⟨h1, h2, h3, h4⟩ := trimTagsFold_props m (processedTags s) 0 (Nat.zero_le m)
  refine ⟨h1, h2, h3, h4, ?_, rfl⟩
  intro hne
  rw [← codeLenFrom_no_empty _ hne]
  exact h4

/-- Witness for C2 on a concrete two-tag input within budget. -/
theorem claim2_witness :
    ("alpha" ∈ (trim_tags_lists "alpha\nbeta" 255).1 ∨
      "alpha" ∈ (trim_tags_lists "alpha\nbeta" 255).2) ∧
    spec_sep_len (trim_tags_lists "alpha\nbeta" 255).1 ≤ 255 :=
  ⟨(claim2_trim_tags "alpha\nbeta" 255).1 "alpha" (by decide),
   (claim2_trim_tags "alpha\nbeta" 255).2.2.2.2.1 (by decide)⟩

/-- A word list of the form first :: mid ++ [last]: the interior lowering
loop maps exactly the mid words. -/
theorem lowerInner_append_last :
    ∀ (mid : List String) (last : String),
      lowerInner (mid ++ [last]) =
        mid.map (fun w => if toLowerStr w ∈ small_words then toLowerStr w else w)
          ++ [last] := by
  intro mid
  induction mid with
  | nil => intro last; rfl
  | cons w rest ih =>
    intro last
    cases hr : rest ++ [last] with
    | nil => simp at hr
    | cons a l =>
      show lowerInner (w :: (rest ++ [last])) = _
      rw [hr, lowerInner, ← hr, ih]
      simp

/-- Claim C5: a finalized title is the title-cased input split into words,
with every interior word whose lowercase form is in the fixed small-word
list lowercased, the first and last words never lowercased; in particular
"the cat and the hat" becomes "The Cat and the Hat". -/
theorem claim5_title_normalization :
    (∀ t : String,
      normalize_title t = joinSep " " (lowerSmallInterior (pySplitWs (py_title t))) ∧
      (∀ first mid last,
        pySplitWs (py_title t) = first :: (mid ++ [last]) →
        lowerSmallInterior (pySplitWs (py_title t)) =
          first ::
            (mid.map (fun w => if toLowerStr w ∈ small_words then toLowerStr w else w)
              ++ [last])) ∧
      (∀ w, pySplitWs (py_title t) = [w] →
        lowerSmallInterior (pySplitWs (py_title t)) = [w])) ∧
    normalize_title "the cat and the hat" = "The Cat and the Hat" := by
  refine ⟨fun t => ⟨rfl, ?_, ?_⟩, by decide⟩
  · intro first mid last hw
    rw [hw, lowerSmallInterior, lowerInner_append_last]
  · intro w hw
    rw [hw]
    rfl

/-- Witness for C5 at the spec's example split. -/
theorem claim5_witness :
    lowerSmallInterior (pySplitWs (py_title "the cat and the hat")) =
      "The" ::
        (["Cat", "And", "The"].map
          (fun w => if toLowerStr w ∈ small_words then toLowerStr w else w)
          ++ ["Hat"]) :=
  ((claim5_title_normalization.1 "the cat and the hat").2.1 "The"
    ["Cat", "And", "The"] "Hat" (by decide))

/-- On an empty product list the report builder never produces a string:
either the sort-key unpacking fails or the header extraction indexes the
first element of the empty row list. -/
theorem pretty_product_info_empty (output : List String) (sortby : String) :
    pretty_product_info [] output sortby = none := by
  rw [pretty_product_info]
  simp only [List.map_nil]
  rw [sortInfoRows]
  by_cases hd : sortby = "default"
  · simp [hd]
  · simp only [hd, if_false]
    cases hsp : pySplitOnAll ['-'] sortby.data with
    | nil => rfl
    | cons f t =>
      cases t with
      | nil => rfl
      | cons dir t2 =>
        cases t2 with
        | nil =>
          by_cases ha : String.mk f = "alpha"
          · simp [ha, sortLe]
          · by_cases hp : String.mk f = "price"
            · simp [ha, hp, sortLe, List.mapM.loop]
            · simp [ha, hp, sortLe]
        | cons c t3 => rfl

/-- Claim C9: an invocation of the Get All Products tool whose enumeration
yields zero products never returns a "Found 0 products" report — the
rendering step fails (empty-list indexing or sort unpacking) — and a
report string is produced only when at least one product exists. -/
theorem claim9_empty_listing :
    ∀ (catalog : List Product) (sortby : Option String)
      (output : Option (List String)),
      (get_all_products catalog = [] →
        get_all_products_execute catalog sortby output = none) ∧
      (∀ s, get_all_products_execute catalog sortby output = some s →
        get_all_products catalog ≠ []) := by
  intro catalog sortby output
  constructor
  · intro h
    rw [get_all_products_execute, h]
    exact pretty_product_info_empty _ _
  · intro s hs h
    rw [get_all_products_execute, h, pretty_product_info_empty] at hs
    exact Option.noConfusion hs

/-- Witness for C9: the empty store with default arguments yields no
report. -/
theorem claim9_witness :
    get_all_products_execute [] none none = none :=
  (claim9_empty_listing [] none none).1 rfl

/-- Claim C1 (amended): the price resolver treats a raw reply as ambiguous
exactly when it contains a hyphen, comma, space, or more than 5
whitespace-separated words; when ambiguous it stores the raw reply as
metadata and averages exactly two bare integer substrings (so
"between 10 and 20" gives 15.0 with the raw reply as metadata), otherwise
issuing exactly one follow-up call; when not ambiguous it parses the reply
with EVERY "$" character removed (not only a leading one) and metadata
None, e.g. "$19.99" gives 19.99. -/
theorem claim1_price_resolver :
    ∀ raw second : String,
      (price_ambiguous raw =
        (raw.data.contains '-' || raw.data.contains ',' || raw.data.contains ' ' ||
          decide (5 < (pySplitWs raw).length))) ∧
      (price_ambiguous raw = true →
        (generate_specific_price_post raw second).2.1 = some raw ∧
        (∀ a b, find_int_tokens raw = [a, b] →
          generate_specific_price_post raw second =
            (some (((digitsVal a.data : ℚ) + (digitsVal b.data : ℚ)) / 2), some raw, 0)) ∧
        ((find_int_tokens raw).length ≠ 2 →
          generate_specific_price_post raw second =
            (parseFloat (removeDollars second), some raw, 1))) ∧
      (price_ambiguous raw = false →
        generate_specific_price_post raw second =
          (parseFloat (removeDollars raw), none, 0)) := by
  intro raw second
  refine ⟨rfl, fun h => ⟨?_, ?_, ?_⟩, fun h => ?_⟩
  · cases hf : find_int_tokens raw with
    | nil => simp [generate_specific_price_post, h, hf]
    | cons a t =>
      cases t with
      | nil => simp [generate_specific_price_post, h, hf]
      | cons b t2 =>
        cases t2 with
        | nil => simp [generate_specific_price_post, h, hf]
        | cons c t3 => simp [generate_specific_price_post, h, hf]
  · intro a b hab
    simp [generate_specific_price_post, h, hab]
  · intro hlen
    cases hf : find_int_tokens raw with
    | nil => simp [generate_specific_price_post, h, hf]
    | cons a t =>
      cases t with
      | nil => simp [generate_specific_price_post, h, hf]
      | cons b t2 =>
        cases t2 with
        | nil => rw [hf] at hlen; simp at hlen
        | cons c t3 => simp [generate_specific_price_post, h, hf]
  · simp [generate_specific_price_post, h]

/-- Witness for C1 at the spec's own example: "between 10 and 20" is
ambiguous and resolves to the average 15 with the raw reply as metadata and
no follow-up call. -/
theorem claim1_witness :
    price_ambiguous "between 10 and 20" = true ∧
    generate_specific_price_post "between 10 and 20" "x" =
      (some 15, some "between 10 and 20", 0) := by
  refine ⟨by decide, ?_⟩
  have h := ((claim1_price_resolver "between 10 and 20" "x").2.1 (by decide)).2.1
    "10" "20" (by decide)
  have d1 : digitsVal "10".data = 10 := rfl
  have d2 : digitsVal "20".data = 20 := rfl
  rw [h, d1, d2]
  simp only [Prod.mk.injEq, Option.some.injEq]
  norm_num

/-- Counterexample to C1 as stated: the non-ambiguous reply "19$99" parses
to 1999.0 because the code removes every "$"; with only a leading "$"
stripped (the claim's wording) the reply would fail to parse as a float. -/
theorem claim1_counterexample :
    generate_specific_price_post "19$99" "x" = (some 1999, none, 0) ∧
    parseFloat (spec_strip_leading_dollar "19$99") = none := by
  exact ⟨by decide, by decide⟩

/-- Counterexample to C2 as stated: on input "\nab" with budget 2 the
stripped tag list is ["", "ab"]; both fit the code's accumulator (which
charges no separator while the total is 0), so the kept string is ", ab"
whose separator-accounted length 4 exceeds the budget 2. -/
theorem claim2_counterexample :
    (trim_tags "\nab" 2).1 = ", ab" ∧
    spec_sep_len (trim_tags_lists "\nab" 2).1 = 4 ∧
    ¬ spec_sep_len (trim_tags_lists "\nab" 2).1 ≤ 2 := by
  exact ⟨rfl, rfl, by decide⟩

end Shopify
